import Mathlib

/-!
Verification of the beckhoff-js ADS/AMS client against its specification.

The definitions below are a shallow embedding of the TypeScript sources:
byte buffers are lists of naturals (each element a byte value 0..255 by
construction of the writers), Node.js Buffer reads that can throw
ERR_OUT_OF_RANGE are Option-valued, and functions that can throw are
Except-valued.
-/

deriving instance DecidableEq for Except

namespace Beckhoff

/-- Byte at index i of a buffer, defaulting to 0 (indices are always
checked by the callers before use, mirroring the Node Buffer bound checks). -/
def byteAt (l : List Nat) (i : Nat) : Nat := l.getD i 0

/-- Little-endian value of a byte list (byte 0 is least significant). -/
def leVal : List Nat → Nat
  | [] => 0
  | b :: rest => b + 256 * leVal rest

/-- Little-endian byte serialisation of width w, as produced by the Node
Buffer writeUIntLE family. -/
def bytesLE : Nat → Nat → List Nat
  | 0, _ => []
  | w + 1, n => n % 256 :: bytesLE w (n / 256)

/-- Node Buffer.readUInt8(off): throws (None) unless off+1 <= length. -/
def readUInt8 (l : List Nat) (off : Nat) : Option Nat :=
  if off + 1 ≤ l.length then some (byteAt l off) else none

/-- Node Buffer.readUInt16LE(off): throws (None) unless off+2 <= length. -/
def readUInt16LE (l : List Nat) (off : Nat) : Option Nat :=
  if off + 2 ≤ l.length then some (leVal ((l.drop off).take 2)) else none

/-- Node Buffer.readUInt32LE(off): throws (None) unless off+4 <= length. -/
def readUInt32LE (l : List Nat) (off : Nat) : Option Nat :=
  if off + 4 ≤ l.length then some (leVal ((l.drop off).take 4)) else none

/-- Node Buffer.readBigUInt64LE(off): throws (None) unless off+8 <= length. -/
def readBigUInt64LE (l : List Nat) (off : Nat) : Option Nat :=
  if off + 8 ≤ l.length then some (leVal ((l.drop off).take 8)) else none

/-- Two's-complement reinterpretation of an unsigned w-byte value, as done
by the Node readIntLE readers. -/
def fromTwosComplement (w : Nat) (u : Nat) : Int :=
  if u < 256 ^ w / 2 then (u : Int) else (u : Int) - (256 ^ w : Nat)

/-- Two's-complement w-byte image of a signed integer, as written by the
Node writeIntLE writers for an in-range argument. -/
def toTwosComplement (w : Nat) (v : Int) : Nat :=
  (v % ((256 ^ w : Nat) : Int)).toNat

end Beckhoff

namespace Beckhoff.Ams

/-- AMS header decoded from the first 32 bytes of an AMS packet
(src/ams.ts, decode). -/
structure Header where
  targetId : List Nat
  targetPort : Nat
  sourceId : List Nat
  sourcePort : Nat
  commandId : Nat
  stateFlags : Nat
  length : Nat
  errorCode : Nat
  invokeId : Nat
  deriving DecidableEq, Repr

/-- Decoded response record (src/ams.ts, interface Packet). -/
structure Packet where
  type : Nat
  header : Header
  result : Option Nat := none
  length : Option Nat := none
  data : Option (List Nat) := none
  deriving DecidableEq, Repr

/-- Shallow embedding of src/ams.ts decode: reads the 32-byte AMS header,
checks the declared payload length against the buffer, and dispatches on
the command id to one of the nine response shapes.  An unknown command id
yields Ok none (the TypeScript function returns undefined); a Node buffer
read out of range or a too-short payload yields Error (a thrown exception). -/
def decode (b : List Nat) : Except String (Option Packet) := do
  let some commandId := readUInt16LE b 16 | .error "out of range"
  let some targetPort := readUInt16LE b 6 | .error "out of range"
  let some sourcePort := readUInt16LE b 14 | .error "out of range"
  let some stateFlags := readUInt16LE b 18 | .error "out of range"
  let some length := readUInt32LE b 20 | .error "out of range"
  let some errorCode := readUInt32LE b 24 | .error "out of range"
  let some invokeId := readUInt32LE b 28 | .error "out of range"
  let header : Header :=
    { targetId := b.take 6, targetPort, sourceId := (b.drop 8).take 6, sourcePort,
      commandId, stateFlags, length, errorCode, invokeId }
  if b.length < header.length then
    .error "data length is to short"
  else
    match commandId with
    | 1 => do -- ReadDeviceInfoResponse
      let some result := readUInt32LE b 32 | .error "out of range"
      .ok (some { type := commandId, header, result := some result, data := some (b.drop 36) })
    | 2 => do -- ReadResponse
      let some result := readUInt32LE b 32 | .error "out of range"
      let some len := readUInt32LE b 36 | .error "out of range"
      .ok (some { type := commandId, header, result := some result, length := some len,
                  data := some (b.drop 40) })
    | 3 => do -- WriteResponse
      let some result := readUInt32LE b 32 | .error "out of range"
      .ok (some { type := commandId, header, result := some result })
    | 4 => do -- ReadStateResponse
      let some result := readUInt32LE b 32 | .error "out of range"
      .ok (some { type := commandId, header, result := some result, data := some (b.drop 36) })
    | 5 => do -- WriteControlResponse
      let some result := readUInt32LE b 32 | .error "out of range"
      .ok (some { type := commandId, header, result := some result })
    | 6 => do -- AddDeviceNotificationResponse
      let some result := readUInt32LE b 32 | .error "out of range"
      .ok (some { type := commandId, header, result := some result, data := some (b.drop 36) })
    | 7 => do -- DeleteDeviceNotificationResponse
      let some result := readUInt32LE b 32 | .error "out of range"
      .ok (some { type := commandId, header, result := some result })
    | 8 => do -- DeviceNotificationResponse
      let some len := readUInt32LE b 32 | .error "out of range"
      .ok (some { type := commandId, header, length := some len, data := some (b.drop 36) })
    | 9 => do -- ReadWriteResponse
      let some result := readUInt32LE b 32 | .error "out of range"
      let some len := readUInt32LE b 36 | .error "out of range"
      .ok (some { type := commandId, header, result := some result, length := some len,
                  data := some (b.drop 40) })
    | _ => .ok none

/-- Shallow embedding of the do-while loop of src/ams.ts parse.  The body
always runs once: it reads the TCP prelude length at offset 2 (throwing,
like Node, when the buffer is shorter than 6 bytes), consumes one complete
packet when the buffer holds at least 6+tcpLength bytes and tcpLength >= 32,
and re-enters only while the remaining buffer has at least 38 bytes and the
last decode returned a (truthy) packet.  The fuel argument only makes the
recursion structural: every re-entry consumes at least 38 bytes, so a fuel
of buf.length can never run out (the fuel-0 branch is unreachable from
parse below). -/
def parseLoopF : Nat → List Nat → Except String (List Nat × List Packet)
  | fuel, buf =>
    match readUInt32LE buf 2 with
    | none => .error "out of range"
    | some tcpLength =>
      if 6 + tcpLength ≤ buf.length ∧ 32 ≤ tcpLength then
        match decode ((buf.drop 6).take tcpLength) with
        | .error e => .error e
        | .ok none => .ok (buf.drop (6 + tcpLength), [])
        | .ok (some p) =>
          if 38 ≤ (buf.drop (6 + tcpLength)).length then
            match fuel with
            | 0 => .error "loop"
            | fuel' + 1 =>
              match parseLoopF fuel' (buf.drop (6 + tcpLength)) with
              | .error e => .error e
              | .ok (r, ps) => .ok (r, p :: ps)
          else .ok (buf.drop (6 + tcpLength), [p])
      else .ok (buf, [])

/-- Entry point of src/ams.ts parse: returns the residual buffer and the
packets decoded from the front of buf. -/
def parse (buf : List Nat) : Except String (List Nat × List Packet) :=
  parseLoopF buf.length buf

/-- Shallow embedding of Client.dataHandler (src/main.ts): the incoming
chunk is appended to the residual buffer, ams.parse is run on the result,
and the residual buffer is replaced.  When parse throws, the concatenated
buffer is kept (it was stored before the call) and nothing is emitted. -/
def dataHandler (st : Option (List Nat)) (chunk : List Nat) :
    Option (List Nat) × List Packet :=
  let buf := match st with | none => chunk | some b => b ++ chunk
  match parse buf with
  | .ok (r, ps) => (some r, ps)
  | .error _ => (some buf, [])

/-- Feed a buffer to the data handler one byte at a time, collecting all
emitted packets. -/
def feedBytes (l : List Nat) : Option (List Nat) × List Packet :=
  l.foldl (fun st c =>
    let r := dataHandler st.1 [c]
    (r.1, st.2 ++ r.2)) ((none : Option (List Nat)), ([] : List Packet))

/-- The packet decoded from one whole frame (prelude + AMS packet), when
decoding succeeds. -/
def getPacket (f : List Nat) : Option Packet :=
  match decode (f.drop 6) with
  | .ok (some p) => some p
  | _ => none

/-- A whole well-formed frame: at least 38 bytes, a prelude length field
that matches the frame, and an AMS packet that decodes to a known response. -/
def WellFormedFrame (f : List Nat) : Prop :=
  38 ≤ f.length ∧ readUInt32LE f 2 = some (f.length - 6) ∧ (getPacket f).isSome

instance : DecidablePred WellFormedFrame := fun f => by
  unfold WellFormedFrame; infer_instance

/-- An incomplete leftover that the frame parser must keep for the next
read: either it is too short for the prelude length field to be read, or
its declared TCP length exceeds the bytes available. -/
def FragmentOk (p : List Nat) : Prop :=
  p.length < 6 ∨ ∃ t, readUInt32LE p 2 = some t ∧ p.length < 6 + t

/-- A 42-byte frame: 6-byte TCP prelude with declared length 36, a 32-byte
AMS header with command id 3 (WriteResponse, payload length 4, invoke id 1)
and a 4-byte result.  36 bytes is the smallest AMS packet any of the nine
response shapes can decode, since all of them read a u32 at offset 32. -/
def frame42 : List Nat :=
  [0, 0, 36, 0, 0, 0] ++
  [1, 2, 3, 4, 1, 1] ++ [33, 3] ++
  [192, 168, 0, 1, 1, 1] ++ [32, 3] ++
  [3, 0] ++ [5, 0] ++
  [4, 0, 0, 0] ++ [0, 0, 0, 0] ++ [1, 0, 0, 0] ++
  [0, 0, 0, 0]

/-- A 40-byte frame shaped like the 42-byte one but with TCP length 34:
a 32-byte AMS header (command id 3, payload length 2) plus 2 payload
bytes.  Its AMS packet is only 34 bytes, so the u32 result read at offset
32 throws in every known response shape. -/
def frame40 : List Nat :=
  [0, 0, 34, 0, 0, 0] ++
  [1, 2, 3, 4, 1, 1] ++ [33, 3] ++
  [192, 168, 0, 1, 1, 1] ++ [32, 3] ++
  [3, 0] ++ [5, 0] ++
  [2, 0, 0, 0] ++ [0, 0, 0, 0] ++ [1, 0, 0, 0] ++
  [0, 0]

end Beckhoff.Ams

namespace Beckhoff.Codec

/-- Dynamic JavaScript values flowing through Client.parse / Client.encode
(src/main.ts).  Numbers returned by the integer readers are integral, so
they are embedded as Int; BigInt values (LINT/ULINT) likewise.  IEEE-754
floats are identified with their bit patterns: readFloatLE returns the
number whose binary32 pattern is the four bytes read, and writeFloatLE of
a binary32-representable number stores exactly that pattern, so on values
of REAL/LREAL tags both are the identity on patterns. -/
inductive JsValue where
  | bool (b : Bool)
  | num (n : Int)
  | big (n : Int)
  | str (s : String)
  | date (ms : Int)
  | real32 (bits : Nat)
  | real64 (bits : Nat)
  | null
  deriving DecidableEq, Repr

/-- The part of a resolved tag that Client.parse / Client.encode consult:
the type name, offset and byte size (src/main.ts SymbolData). -/
structure Tag where
  type : String
  offset : Nat
  size : Nat
  deriving DecidableEq, Repr

/-- Result of Client.encode (src/main.ts interface WriteInformation). -/
structure WriteInformation where
  offset : Nat
  size : Nat
  data : List Nat
  deriving DecidableEq, Repr

/-- Whether the first list is a leading segment of the second. -/
def startsWithChars : List Char → List Char → Bool
  | [], _ => true
  | _ :: _, [] => false
  | p :: ps, c :: cs => (p = c) && startsWithChars ps cs

/-- JS String#replace with a plain-string pattern: replace the first
occurrence only (here with the empty string, i.e. delete it). -/
def removeFirstChars (s pat : List Char) : List Char :=
  match s with
  | [] => []
  | c :: rest =>
    if startsWithChars pat (c :: rest) then (c :: rest).drop pat.length
    else c :: removeFirstChars rest pat

/-- The type name with the ' (VAR_IN_OUT)' marker removed, as done by
String#replace at the top of Client.parse and Client.encode. -/
def stripType (t : Tag) : String :=
  String.mk (removeFirstChars t.type.toList " (VAR_IN_OUT)".toList)

/-- Buffer.from(s, 'latin1'): each UTF-16 code unit contributes its low
byte. -/
def latin1Bytes (s : String) : List Nat := s.toList.map (fun c => c.toNat % 256)

/-- buffer.toString('latin1'): each byte (0..255) becomes the code point
of the same value. -/
def latin1String (l : List Nat) : String := String.mk (l.map (fun b => Char.ofNat b))

/-- str.substring(0, str.indexOf NUL) on the byte level: the part before
the first NUL byte, or empty when there is none (indexOf returns -1 and
substring(0, -1) clamps to the empty string). -/
def nulTruncBytes (l : List Nat) : List Nat :=
  if l.contains 0 then l.takeWhile (fun b => b ≠ 0) else []

/-- JS ("0" + n).slice(-2): the last two characters of the zero-prefixed
decimal rendering. -/
def pad2Slice (n : Nat) : String :=
  let s := "0" ++ toString n
  s.drop (s.length - 2)

/-- The HH:MM string built by the TIME branch of Client.parse. -/
def timeHHMM (hh mm : Nat) : String := pad2Slice hh ++ ":" ++ pad2Slice mm

/-- Decimal digit value of a character, if any. -/
def digitVal (c : Char) : Option Nat :=
  if 48 ≤ c.toNat ∧ c.toNat ≤ 57 then some (c.toNat - 48) else none

/-- Wall-clock parse of an HH:MM string as done by new Date("1970 " + v):
a valid local time of day on 1970-01-01, or none (an invalid Date, whose
numeric value NaN makes the subsequent writeUInt32LE throw). -/
def parseHHMM (s : String) : Option (Nat × Nat) :=
  match s.toList with
  | [h1, h2, c, m1, m2] =>
    match digitVal h1, digitVal h2, digitVal m1, digitVal m2 with
    | some a, some b, some d, some e =>
      if c = ':' ∧ 10 * a + b < 24 ∧ 10 * d + e < 60 then
        some (10 * a + b, 10 * d + e)
      else none
    | _, _, _, _ => none
  | _ => none

/-- JavaScript truthiness of the embedded values (only the BOOL branch of
Client.encode uses it). -/
def jsTruthy : JsValue → Bool
  | .bool b => b
  | .num n => n != 0
  | .big n => n != 0
  | .str s => s ≠ ""
  | .date _ => true
  | .real32 bits => bits != 0 && bits != 2147483648
  | .real64 bits => bits != 0 && bits != 9223372036854775808
  | .null => false

/-- Shallow embedding of the primitive switch of Client.parse
(src/main.ts, lines 839-941) together with its STRING branch and the
fall-through behaviour when connection.dataTypes holds no entry for the
type name: the TypeScript function then returns null.  (The composite
branches - arrays and structures via dataTypes - are dispatched before
that null and are outside this function's scope.)  The tzms parameter is
the host's fixed UTC offset in milliseconds, east positive, modelling the
local-wall-clock conversion performed by Date#getHours/getMinutes. -/
def parsePrim (tzms : Int) (tag : Tag) (data : List Nat) : Except String JsValue :=
  match stripType tag with
  | "BOOL" | "BIT" =>
    match readUInt8 data 0 with
    | some b => .ok (.bool (b > 0))
    | none => .error "out of range"
  | "BYTE" | "USINT" | "UINT8" =>
    match readUInt8 data 0 with
    | some b => .ok (.num b)
    | none => .error "out of range"
  | "SINT" | "INT8" =>
    match readUInt8 data 0 with
    | some b => .ok (.num (fromTwosComplement 1 b))
    | none => .error "out of range"
  | "UINT" | "WORD" | "UINT16" =>
    match readUInt16LE data 0 with
    | some u => .ok (.num u)
    | none => .error "out of range"
  | "INT" | "INT16" =>
    match readUInt16LE data 0 with
    | some u => .ok (.num (fromTwosComplement 2 u))
    | none => .error "out of range"
  | "DWORD" | "UDINT" | "UINT32" =>
    match readUInt32LE data 0 with
    | some u => .ok (.num u)
    | none => .error "out of range"
  | "DINT" | "INT32" =>
    match readUInt32LE data 0 with
    | some u => .ok (.num (fromTwosComplement 4 u))
    | none => .error "out of range"
  | "REAL" =>
    match readUInt32LE data 0 with
    | some u => .ok (.real32 u)
    | none => .error "out of range"
  | "ULINT" =>
    match readBigUInt64LE data 0 with
    | some u => .ok (.big u)
    | none => .error "out of range"
  | "LINT" =>
    match readBigUInt64LE data 0 with
    | some u => .ok (.big (fromTwosComplement 8 u))
    | none => .error "out of range"
  | "LREAL" =>
    match readBigUInt64LE data 0 with
    | some u => .ok (.real64 u)
    | none => .error "out of range"
  | "DATE" | "DT" | "DATE_AND_TIME" =>
    match readUInt32LE data 0 with
    | some secs => .ok (.date (secs * 1000))
    | none => .error "out of range"
  | "TIME" | "TOD" | "TIME_OF_DAY" =>
    match readUInt32LE data 0 with
    | some ms =>
      let localMs : Int := (ms : Int) + tzms
      let hh := ((localMs / 3600000) % 24).toNat
      let mm := ((localMs / 60000) % 60).toNat
      .ok (.str (timeHHMM hh mm))
    | none => .error "out of range"
  | "PVOID" | "OTCID" =>
    match readUInt32LE data 0 with
    | some u => .ok (.num u)
    | none => .error "out of range"
  | ty =>
    if ty.take 6 = "STRING" then
      .ok (.str (latin1String (nulTruncBytes (data.take tag.size))))
    else
      .ok .null

/-- Shallow embedding of the primitive switch of Client.encode
(src/main.ts, lines 971-1114) together with its STRING branch and the
fall-through when connection.dataTypes holds no entry for the type name:
the TypeScript function then throws 'datatype was not found'.  Range and
type validation mirror the Node Buffer writers (which throw on
out-of-range or non-numeric input); see parsePrim for the float and tzms
conventions.  Note the STRING branch copies the value without padding it
to tag.size. -/
def encodePrim (tzms : Int) (tag : Tag) (value : JsValue) : Except String WriteInformation :=
  let mk := fun (data : List Nat) =>
    ({ offset := tag.offset, size := tag.size, data } : WriteInformation)
  match stripType tag with
  | "BOOL" | "BIT" => .ok (mk [if jsTruthy value then 1 else 0])
  | "BYTE" | "USINT" | "UINT8" =>
    match value with
    | .num n => if 0 ≤ n ∧ n < 256 then .ok (mk (bytesLE 1 n.toNat)) else .error "out of range"
    | _ => .error "invalid type"
  | "SINT" | "INT8" =>
    match value with
    | .num n =>
      if -128 ≤ n ∧ n < 128 then .ok (mk (bytesLE 1 (toTwosComplement 1 n)))
      else .error "out of range"
    | _ => .error "invalid type"
  | "UINT" | "WORD" | "UINT16" =>
    match value with
    | .num n => if 0 ≤ n ∧ n < 65536 then .ok (mk (bytesLE 2 n.toNat)) else .error "out of range"
    | _ => .error "invalid type"
  | "INT" | "INT16" =>
    match value with
    | .num n =>
      if -32768 ≤ n ∧ n < 32768 then .ok (mk (bytesLE 2 (toTwosComplement 2 n)))
      else .error "out of range"
    | _ => .error "invalid type"
  | "DWORD" | "UDINT" | "UINT32" =>
    match value with
    | .num n =>
      if 0 ≤ n ∧ n < 4294967296 then .ok (mk (bytesLE 4 n.toNat)) else .error "out of range"
    | _ => .error "invalid type"
  | "DINT" | "INT32" =>
    match value with
    | .num n =>
      if -2147483648 ≤ n ∧ n < 2147483648 then .ok (mk (bytesLE 4 (toTwosComplement 4 n)))
      else .error "out of range"
    | _ => .error "invalid type"
  | "REAL" =>
    match value with
    | .real32 bits => if bits < 4294967296 then .ok (mk (bytesLE 4 bits)) else .error "out of range"
    | _ => .error "invalid type"
  | "ULINT" =>
    match value with
    | .big n =>
      if 0 ≤ n ∧ n < 18446744073709551616 then .ok (mk (bytesLE 8 n.toNat))
      else .error "out of range"
    | _ => .error "invalid type"
  | "LINT" =>
    match value with
    | .big n =>
      if -9223372036854775808 ≤ n ∧ n < 9223372036854775808 then
        .ok (mk (bytesLE 8 (toTwosComplement 8 n)))
      else .error "out of range"
    | _ => .error "invalid type"
  | "LREAL" =>
    match value with
    | .real64 bits =>
      if bits < 18446744073709551616 then .ok (mk (bytesLE 8 bits)) else .error "out of range"
    | _ => .error "invalid type"
  | "DATE" | "DT" | "DATE_AND_TIME" =>
    match value with
    | .date ms =>
      if ms % 1000 = 0 ∧ 0 ≤ ms ∧ ms / 1000 < 4294967296 then
        .ok (mk (bytesLE 4 (ms / 1000).toNat))
      else .error "out of range"
    | _ => .error "invalid type"
  | "TIME" | "TOD" | "TIME_OF_DAY" =>
    match value with
    | .str s =>
      match parseHHMM s with
      | some (hh, mm) =>
        let ms : Int := ((hh * 60 + mm : Nat) : Int) * 60000 - tzms
        if 0 ≤ ms ∧ ms < 4294967296 then .ok (mk (bytesLE 4 ms.toNat))
        else .error "out of range"
      | none => .error "out of range"
    | _ => .error "invalid type"
  | "PVOID" | "OTCID" =>
    .error "encode: writing datatypes PVOID and OTCID is not supported"
  | ty =>
    if ty.take 6 = "STRING" then
      match value with
      | .str s => .ok (mk (latin1Bytes s))
      | _ => .error "invalid type"
    else
      .error "encode: datatype was not found or recogniced"

/-- The values a resolved primitive-typed tag can carry, following the
primitive table of the specification: the type-name families of the
Client.parse / Client.encode switch, with the value ranges the Node
buffer writers accept.  The tzms parameter constrains TIME values to wall
times whose 1970-01-01 instant is representable in the unsigned 32-bit
millisecond field. -/
inductive WellTypedPrim (tzms : Int) : Tag → JsValue → Prop where
  | boolv (t : Tag) (b : Bool)
      (h : stripType t = "BOOL" ∨ stripType t = "BIT") :
      WellTypedPrim tzms t (.bool b)
  | uint8v (t : Tag) (n : Int)
      (h : stripType t = "BYTE" ∨ stripType t = "USINT" ∨ stripType t = "UINT8")
      (h0 : 0 ≤ n) (h1 : n < 256) : WellTypedPrim tzms t (.num n)
  | int8v (t : Tag) (n : Int)
      (h : stripType t = "SINT" ∨ stripType t = "INT8")
      (h0 : -128 ≤ n) (h1 : n < 128) : WellTypedPrim tzms t (.num n)
  | uint16v (t : Tag) (n : Int)
      (h : stripType t = "UINT" ∨ stripType t = "WORD" ∨ stripType t = "UINT16")
      (h0 : 0 ≤ n) (h1 : n < 65536) : WellTypedPrim tzms t (.num n)
  | int16v (t : Tag) (n : Int)
      (h : stripType t = "INT" ∨ stripType t = "INT16")
      (h0 : -32768 ≤ n) (h1 : n < 32768) : WellTypedPrim tzms t (.num n)
  | uint32v (t : Tag) (n : Int)
      (h : stripType t = "DWORD" ∨ stripType t = "UDINT" ∨ stripType t = "UINT32")
      (h0 : 0 ≤ n) (h1 : n < 4294967296) : WellTypedPrim tzms t (.num n)
  | int32v (t : Tag) (n : Int)
      (h : stripType t = "DINT" ∨ stripType t = "INT32")
      (h0 : -2147483648 ≤ n) (h1 : n < 2147483648) : WellTypedPrim tzms t (.num n)
  | realv (t : Tag) (bits : Nat)
      (h : stripType t = "REAL") (h1 : bits < 4294967296) :
      WellTypedPrim tzms t (.real32 bits)
  | ulintv (t : Tag) (n : Int)
      (h : stripType t = "ULINT")
      (h0 : 0 ≤ n) (h1 : n < 18446744073709551616) : WellTypedPrim tzms t (.big n)
  | lintv (t : Tag) (n : Int)
      (h : stripType t = "LINT")
      (h0 : -9223372036854775808 ≤ n) (h1 : n < 9223372036854775808) :
      WellTypedPrim tzms t (.big n)
  | lrealv (t : Tag) (bits : Nat)
      (h : stripType t = "LREAL") (h1 : bits < 18446744073709551616) :
      WellTypedPrim tzms t (.real64 bits)
  | datev (t : Tag) (ms : Int)
      (h : stripType t = "DATE" ∨ stripType t = "DT" ∨ stripType t = "DATE_AND_TIME")
      (hmod : ms % 1000 = 0) (h0 : 0 ≤ ms) (h1 : ms / 1000 < 4294967296) :
      WellTypedPrim tzms t (.date ms)
  | timev (t : Tag) (hh mm : Nat)
      (h : stripType t = "TIME" ∨ stripType t = "TOD" ∨ stripType t = "TIME_OF_DAY")
      (hh24 : hh < 24) (hm60 : mm < 60)
      (htz0 : 0 ≤ ((hh * 60 + mm : Nat) : Int) * 60000 - tzms)
      (htz1 : ((hh * 60 + mm : Nat) : Int) * 60000 - tzms < 4294967296) :
      WellTypedPrim tzms t (.str (timeHHMM hh mm))
  | voidv (t : Tag) (v : JsValue)
      (h : stripType t = "PVOID" ∨ stripType t = "OTCID") : WellTypedPrim tzms t v
  | real80v (t : Tag) (v : JsValue)
      (h : stripType t = "REAL80") : WellTypedPrim tzms t v
  | strv (t : Tag) (s : String)
      (h : (stripType t).take 6 = "STRING") : WellTypedPrim tzms t (.str s)

/-- What decode-after-encode actually does on the code, per type family:
REAL80 and VOID-pointer types fail to encode; STRING values come back as
the part of the (size-truncated) value before its first NUL, or empty when
it has none; every other primitive family round-trips exactly. -/
def RoundtripSpec (tzms : Int) (t : Tag) (v : JsValue) : Prop :=
  if stripType t = "PVOID" ∨ stripType t = "OTCID" ∨ stripType t = "REAL80" then
    ∃ e, encodePrim tzms t v = .error e
  else if (stripType t).take 6 = "STRING" then
    ∃ s, v = .str s ∧
      encodePrim tzms t v = .ok { offset := t.offset, size := t.size, data := latin1Bytes s } ∧
      parsePrim tzms t (latin1Bytes s) =
        .ok (.str (latin1String (nulTruncBytes ((latin1Bytes s).take t.size))))
  else
    ∃ w, encodePrim tzms t v = .ok w ∧ parsePrim tzms t w.data = .ok v

/-- Values flowing through the full Client.parse / Client.encode dispatch:
a primitive value, or a plain JS object (a structure value consumed by the
structure branch of encode and produced by the structure branch of parse,
and likewise the object built by parseArray). -/
inductive PValue where
  | prim (v : JsValue)
  | obj (fields : List (String × PValue))

/-- A structure sub-item: the fields of the DataType records in
dt.subItems that Client.parse / Client.encode consult (interfaces.ts
DataType - name, type, offset and size). -/
structure SubItem where
  name : String
  type : String
  offset : Nat
  size : Nat
  deriving DecidableEq, Repr

/-- A connection.dataTypes table entry as consulted by the composite
branches of Client.parse / Client.encode: byte size, offset, element type
name, array dimensions (start, length) and structure sub-items. -/
structure DataTypeInfo where
  size : Nat
  offset : Nat
  type : String
  arrayDimentions : List (Nat × Nat)
  subItems : List SubItem
  deriving DecidableEq, Repr

/-- The tag record a structure sub-item presents to the recursive
Client.parse / Client.encode call (the DataType record itself is passed). -/
def subTag (it : SubItem) : Tag :=
  { type := it.type, offset := it.offset, size := it.size }

/-- The tag record a DataType entry presents when Client.parse recurses
into the array decoder (parseArray receives dt itself as the tag). -/
def dtTag (dt : DataTypeInfo) : Tag :=
  { type := dt.type, offset := dt.offset, size := dt.size }

/-- Property lookup on connection.dataTypes, a JS object keyed by the
unmodified type name (dataTypes[tag.type]). -/
def dtLookup (dts : List (String × DataTypeInfo)) (key : String) :
    Option DataTypeInfo :=
  (dts.find? (fun p => p.1 == key)).map Prod.snd

/-- JS object property assignment acc[k] = v: replace the value of an
existing key in place, else append the new key. -/
def setField (fields : List (String × PValue)) (k : String) (v : PValue) :
    List (String × PValue) :=
  if fields.any (fun p => p.1 == k) then
    fields.map (fun p => if p.1 == k then (k, v) else p)
  else fields ++ [(k, v)]

/-- Property access value[item.name] as used by the structure branch of
Client.encode: a key lookup on objects; on primitive values the accessed
sub-item names are not own properties, so the access yields undefined. -/
def PValue.getProp : PValue → String → Option PValue
  | .obj fields, k => (fields.find? (fun p => p.1 == k)).map Prod.snd
  | .prim _, _ => none

/-- The 29 type names handled by the switch statements of Client.parse
and Client.encode (both switches list exactly these cases). -/
def switchType (ty : String) : Bool :=
  ty == "BOOL" || ty == "BIT" || ty == "BYTE" || ty == "USINT" || ty == "UINT8" ||
  ty == "SINT" || ty == "INT8" || ty == "UINT" || ty == "WORD" || ty == "UINT16" ||
  ty == "INT" || ty == "INT16" || ty == "DWORD" || ty == "UDINT" || ty == "UINT32" ||
  ty == "DINT" || ty == "INT32" || ty == "REAL" || ty == "ULINT" || ty == "LINT" ||
  ty == "LREAL" || ty == "DATE" || ty == "DT" || ty == "DATE_AND_TIME" ||
  ty == "TIME" || ty == "TOD" || ty == "TIME_OF_DAY" || ty == "PVOID" || ty == "OTCID"

/-- Byte width written and read back by the fixed-width exactly
round-tripping primitive families (0 for every other type name, among
them the STRING family and the unencodable PVOID/OTCID). -/
def typeWidth (ty : String) : Nat :=
  if ty == "BOOL" || ty == "BIT" || ty == "BYTE" || ty == "USINT" || ty == "UINT8" ||
      ty == "SINT" || ty == "INT8" then 1
  else if ty == "UINT" || ty == "WORD" || ty == "UINT16" || ty == "INT" ||
      ty == "INT16" then 2
  else if ty == "DWORD" || ty == "UDINT" || ty == "UINT32" || ty == "DINT" ||
      ty == "INT32" || ty == "REAL" || ty == "DATE" || ty == "DT" ||
      ty == "DATE_AND_TIME" || ty == "TIME" || ty == "TOD" ||
      ty == "TIME_OF_DAY" then 4
  else if ty == "ULINT" || ty == "LINT" || ty == "LREAL" then 8
  else 0

/-- Buffer#copy of src into dst at offset off: the copy truncates at the
target's end and leaves the surrounding bytes unchanged. -/
def bufCopy (src dst : List Nat) (off : Nat) : List Nat :=
  dst.take off ++ src.take (dst.length - off) ++ dst.drop (off + src.length)

/-- One step of the structure branch of Client.encode (src/main.ts, lines
1097-1105): look the sub-item's value up on the structure value, encode it
through the given recursive call and copy the bytes into the structure
buffer at the sub-item's offset; a missing member value throws. -/
def encodeStructStep (enc : Tag → PValue → Except String WriteInformation)
    (value : PValue) (acc : Except String (List Nat)) (it : SubItem) :
    Except String (List Nat) :=
  match acc with
  | .error e => .error e
  | .ok buf =>
    match PValue.getProp value it.name with
    | none => .error ("encode: cant write structure if not all values are defined, "
        ++ it.name ++ " is missing")
    | some v =>
      match enc (subTag it) v with
      | .error e => .error e
      | .ok w => .ok (bufCopy w.data buf it.offset)

/-- One step of the structure branch of Client.parse (src/main.ts, lines
934-937): parse the sub-item's slice through the given recursive call and
assign the result to the accumulator object under the sub-item's name; a
thrown parse exception propagates. -/
def parseStructStep (pars : Tag → List Nat → Except String (PValue × List (Nat × Nat)))
    (data : List Nat) (acc : Except String (List (String × PValue))) (it : SubItem) :
    Except String (List (String × PValue)) :=
  match acc with
  | .error e => .error e
  | .ok fields =>
    match pars (subTag it) ((data.drop it.offset).take it.size) with
    | .error e => .error e
    | .ok (v, _) => .ok (setField fields it.name v)

/-- Shallow embedding of the full Client.encode (src/main.ts, lines
971-1114): the primitive switch and STRING branch as in encodePrim, then
the connection.dataTypes lookup - a missing entry throws, an entry with
array dimensions throws 'encode: writing arrays are not supported yet'
(lines 1079-1081), an entry with sub-items encodes a structure field by
field into a zero-filled buffer of the datatype's size, and anything else
throws.  The fuel argument bounds the recursion depth (the JS recursion
overflows the call stack on a cyclic datatype table); the theorems below
always supply enough fuel.  A resolved tag carries no targetTag, so the
sub-item targetTag special case is never taken.  An object value reaching
the primitive switch behaves as in JS: truthy for BOOL/BIT, rejected by
the numeric writers and by Buffer.from. -/
def encodeFull (dts : List (String × DataTypeInfo)) (tzms : Int) :
    Nat → Tag → PValue → Except String WriteInformation
  | 0, _, _ => .error "encode: maximum call stack size exceeded"
  | fuel + 1, tag, value =>
    if switchType (stripType tag) ∨ (stripType tag).take 6 = "STRING" then
      match value with
      | .prim v => encodePrim tzms tag v
      | .obj _ =>
        if stripType tag = "BOOL" ∨ stripType tag = "BIT" then
          .ok { offset := tag.offset, size := tag.size, data := [1] }
        else if stripType tag = "PVOID" ∨ stripType tag = "OTCID" then
          .error "encode: writing datatypes PVOID and OTCID is not supported"
        else .error "invalid type"
    else
      match dtLookup dts tag.type with
      | none => .error "encode: datatype was not found or recogniced"
      | some dt =>
        if dt.arrayDimentions.length > 0 then
          .error "encode: writing arrays are not supported yet"
        else if dt.subItems.length > 0 then
          match dt.subItems.foldl
            (encodeStructStep (fun tg v => encodeFull dts tzms fuel tg v) value)
            (.ok (List.replicate dt.size 0)) with
          | .error e => .error e
          | .ok buf => .ok { offset := tag.offset, size := tag.size, data := buf }
        else
          .error "encode: datatype was not recogniced"

/-- Shallow embedding of the full Client.parse together with parseArray
(src/main.ts, lines 839-969) as one fuel-indexed function.  Called with no
dimension state (none) it is Client.parse: the primitive switch and STRING
branch as in parsePrim, then the connection.dataTypes lookup, returning
null for a missing entry, recursing into the array decoder for an entry
with array dimensions, assembling an object field by field for an entry
with sub-items, and null otherwise.  Called with a dimension list (some
dims) it is parseArray, which pops the last dimension and decodes the
elements; JS mutates the dimension array in place across the recursion, so
the function returns the remaining dimensions alongside the value and the
element loop threads them.  Element slice bounds i * (data.length /
count) are taken with exact rational floors, which agrees with the JS
float arithmetic whenever the element byte size is exactly representable,
in particular whenever the count divides the byte length.  A resolved tag
carries no targetTag, so the sub-item targetTag special case is never
taken. -/
def parseF (dts : List (String × DataTypeInfo)) (tzms : Int) :
    Nat → Tag → List Nat → Option (List (Nat × Nat)) →
      Except String (PValue × List (Nat × Nat))
  | 0, _, _, _ => .error "parse: maximum call stack size exceeded"
  | fuel + 1, tag, data, none =>
    if switchType (stripType tag) ∨ (stripType tag).take 6 = "STRING" then
      match parsePrim tzms tag data with
      | .error e => .error e
      | .ok v => .ok (.prim v, [])
    else
      match dtLookup dts tag.type with
      | none => .ok (.prim .null, [])
      | some dt =>
        if dt.arrayDimentions.length > 0 then
          match parseF dts tzms fuel (dtTag dt) ((data.drop dt.offset).take dt.size)
              (some dt.arrayDimentions) with
          | .error e => .error e
          | .ok (v, _) => .ok (v, [])
        else if dt.subItems.length > 0 then
          match dt.subItems.foldl
            (parseStructStep (fun tg d => parseF dts tzms fuel tg d none) data)
            (.ok []) with
          | .error e => .error e
          | .ok fields => .ok (.obj fields, [])
        else
          .ok (.prim .null, [])
  | fuel + 1, tag, data, some dims =>
    match dims.getLast? with
    | none => .error "parse: invalid array dimention"
    | some (start, len) =>
      if len = 0 then .error "parse: invalid array dimention"
      else
        match (List.range len).foldl
          (fun (acc : Except String (List (String × PValue) × List (Nat × Nat))) i =>
            match acc with
            | .error e => .error e
            | .ok (fields, ds) =>
              let slice := (data.drop (i * data.length / len)).take
                ((i + 1) * data.length / len - i * data.length / len)
              if ds.length > 0 then
                match parseF dts tzms fuel tag slice (some ds) with
                | .error e => .error e
                | .ok (v, ds') => .ok (setField fields (toString (i + start)) v, ds')
              else
                match parseF dts tzms fuel tag slice none with
                | .error e => .error e
                | .ok (v, _) => .ok (setField fields (toString (i + start)) v, ds))
          (.ok ([], dims.dropLast)) with
        | .error e => .error e
        | .ok (fields, ds) => .ok (.obj fields, ds)

/-- Client.parse of a resolved tag: the value component of parseF with no
dimension state. -/
def parseFull (dts : List (String × DataTypeInfo)) (tzms : Int)
    (fuel : Nat) (tag : Tag) (data : List Nat) : Except String PValue :=
  match parseF dts tzms fuel tag data none with
  | .error e => .error e
  | .ok (v, _) => .ok v

/-- Sequential non-overlapping layout of structure sub-items: each
sub-item lies at or after the running cursor, its declared size covers
its family's byte width, and the cursor advances past the written bytes,
ending within the structure's byte size. -/
def layoutOk : Nat → Nat → List SubItem → Bool
  | cursor, size, [] => decide (cursor ≤ size)
  | cursor, size, it :: rest =>
    decide (cursor ≤ it.offset) &&
      decide (typeWidth (stripType (subTag it)) ≤ it.size) &&
      layoutOk (it.offset + typeWidth (stripType (subTag it))) size rest

/-- The resolved tag / value shapes covered by the round-trip claim: a
primitive-family value (REAL80 aside); any value at a REAL80 tag whose
datatype entry, if present, is not a structure; any value at a tag that
resolves to an array datatype (encode rejects them all); and a structure
of exactly round-tripping primitives in a sequential layout with distinct
member names. -/
inductive WellTypedFull (dts : List (String × DataTypeInfo)) (tzms : Int) :
    Tag → PValue → Prop where
  | primv (t : Tag) (v : JsValue)
      (h : WellTypedPrim tzms t v) (h80 : stripType t ≠ "REAL80") :
      WellTypedFull dts tzms t (.prim v)
  | real80v (t : Tag) (v : PValue) (h : stripType t = "REAL80")
      (hdt : ∀ dt, dtLookup dts t.type = some dt → dt.subItems = []) :
      WellTypedFull dts tzms t v
  | arrayv (t : Tag) (v : PValue) (dt : DataTypeInfo)
      (hsw : switchType (stripType t) = false)
      (hstr : (stripType t).take 6 ≠ "STRING")
      (hdt : dtLookup dts t.type = some dt)
      (harr : dt.arrayDimentions ≠ []) :
      WellTypedFull dts tzms t v
  | structv (t : Tag) (dt : DataTypeInfo) (vals : List JsValue)
      (hsw : switchType (stripType t) = false)
      (hstr : (stripType t).take 6 ≠ "STRING")
      (h80 : stripType t ≠ "REAL80")
      (hdt : dtLookup dts t.type = some dt)
      (harr : dt.arrayDimentions = [])
      (hsub : dt.subItems ≠ [])
      (hvals : List.Forall₂
        (fun it v => WellTypedPrim tzms (subTag it) v ∧
          0 < typeWidth (stripType (subTag it))) dt.subItems vals)
      (hlay : layoutOk 0 dt.size dt.subItems = true)
      (hnames : (dt.subItems.map SubItem.name).Nodup) :
      WellTypedFull dts tzms t
        (.obj (List.zipWith (fun it v => (it.name, PValue.prim v)) dt.subItems vals))

/-- Whether the tag's type name resolves in the datatype table to an
entry with array dimensions. -/
def resolvesArray (dts : List (String × DataTypeInfo)) (t : Tag) : Bool :=
  match dtLookup dts t.type with
  | some dt => !dt.arrayDimentions.isEmpty
  | none => false

/-- What decode-after-encode does on the code over the full type
dispatch: PVOID/OTCID and REAL80 tags fail to encode; STRING values come
back truncated at the first NUL of the size-limited buffer; a tag
resolving to an array datatype fails to encode with 'writing arrays are
not supported yet'; every other covered shape - the remaining primitive
families and structures of them - round-trips exactly. -/
def RoundtripFull (dts : List (String × DataTypeInfo)) (tzms : Int)
    (fuel : Nat) (t : Tag) (v : PValue) : Prop :=
  if stripType t = "PVOID" ∨ stripType t = "OTCID" ∨ stripType t = "REAL80" then
    ∃ e, encodeFull dts tzms fuel t v = .error e
  else if (stripType t).take 6 = "STRING" then
    ∃ s, v = .prim (.str s) ∧
      encodeFull dts tzms fuel t v =
        .ok { offset := t.offset, size := t.size, data := latin1Bytes s } ∧
      parseFull dts tzms fuel t (latin1Bytes s) =
        .ok (.prim (.str (latin1String (nulTruncBytes ((latin1Bytes s).take t.size)))))
  else if switchType (stripType t) = false ∧ resolvesArray dts t = true then
    encodeFull dts tzms fuel t v = .error "encode: writing arrays are not supported yet"
  else
    ∃ w, encodeFull dts tzms fuel t v = .ok w ∧
      parseFull dts tzms fuel t w.data = .ok v

/-- A STRING(2) tag (byte size 3, the declared length plus a terminator). -/
def strTag : Tag := { type := "STRING(2)", offset := 0, size := 3 }

/-- The datatype entry of ARRAY [1..2] OF BOOL: one dimension of two
BOOL elements. -/
def arrBoolType : DataTypeInfo :=
  { size := 2, offset := 0, type := "BOOL", arrayDimentions := [(1, 2)], subItems := [] }

/-- A datatype table holding only the array type. -/
def arrRegistry : List (String × DataTypeInfo) := [("ARRAY [1..2] OF BOOL", arrBoolType)]

/-- A resolved symbol of the array type. -/
def arrTag : Tag := { type := "ARRAY [1..2] OF BOOL", offset := 32, size := 2 }

/-- A two-member structure datatype: a BOOL at offset 0 and an INT at
offset 2 in a four-byte layout. -/
def stAlarmsType : DataTypeInfo :=
  { size := 4, offset := 0, type := "ST_Alarms", arrayDimentions := [],
    subItems := [{ name := "HI", type := "BOOL", offset := 0, size := 1 },
                 { name := "LO", type := "INT", offset := 2, size := 2 }] }

/-- A datatype table holding only the structure type. -/
def stAlarmsRegistry : List (String × DataTypeInfo) := [("ST_Alarms", stAlarmsType)]

/-- A resolved symbol of the structure type. -/
def stAlarmsTag : Tag := { type := "ST_Alarms", offset := 16, size := 4 }

/-- A structure value for it: both members given. -/
def stAlarmsValue : PValue :=
  .obj [("HI", .prim (.bool true)), ("LO", .prim (.num 5))]

end Beckhoff.Codec

namespace Beckhoff.Client

/-- A decoded symbol-table entry (src/main.ts interface SymbolData). -/
structure SymbolData where
  group : Nat
  offset : Nat
  size : Nat
  dataType : Nat
  flags : Nat
  name : String
  systemName : String
  type : String
  comment : String
  deriving DecidableEq, Repr

/-- JS String#toUpperCase on the ASCII names used by the PLC tables. -/
def jsToUpper (s : String) : String := String.mk (s.toList.map Char.toUpper)

/-- Shallow embedding of Client.findTag (src/main.ts, lines 410-432) given
the loaded symbol list in insertion order: upper-case the queried name and
return the first symbol whose systemName equals
systemTagName.substring(0, systemName.length), i.e. the first symbol whose
upper-cased name is a leading segment of the upper-cased query.  On success
the symbol is returned together with the targetTag the code stores on it. -/
def findTag (symbols : List SymbolData) (tagName : String) :
    Option (SymbolData × String) :=
  let systemTagName := jsToUpper tagName
  match symbols.find?
      (fun s => s.systemName == String.mk (systemTagName.toList.take s.systemName.length)) with
  | some tag => some (tag, systemTagName)
  | none => none

/-- The (group, offset, size) triple of the ADS Read request that
Client.readTag (src/main.ts, lines 433-444) issues for a tag name. -/
def readTagRequest (symbols : List SymbolData) (tagName : String) :
    Option (Nat × Nat × Nat) :=
  (findTag symbols tagName).map (fun r => (r.1.group, r.1.offset, r.1.size))

/-- Node buffer.toString('ascii', ...): each byte is masked to 7 bits. -/
def asciiString (l : List Nat) : String :=
  String.mk (l.map (fun b => Char.ofNat (b % 128)))

/-- JS object property assignment obj[k] = v on a string-keyed object,
preserving insertion order. -/
def jsObjectSet {α : Type} : List (String × α) → String → α → List (String × α)
  | [], k, v => [(k, v)]
  | (k', v') :: rest, k, v =>
    if k' = k then (k', v) :: rest else (k', v') :: jsObjectSet rest k v

/-- One pass of the while-loop body of Client.getSymbols (src/main.ts,
lines 550-589), entered with at least 26 buffered bytes: read the u32
entry length, and when the buffer holds a complete record of at least 26
bytes decode it and advance; otherwise leave the buffer untouched (the
loop then spins forever, since nothing advances).  Node reads that can
throw are threaded through Except. -/
def symbolsStep (buf : List Nat) (acc : List (String × SymbolData)) :
    Except String (List Nat × List (String × SymbolData)) :=
  let entryLength := leVal (buf.take 4)
  if buf.length ≥ entryLength ∧ entryLength ≥ 26 then
    let entryData := (buf.drop 4).take (entryLength - 4)
    match readUInt16LE entryData 20, readUInt16LE entryData 22, readUInt16LE entryData 24 with
    | some nameLength, some typeLength, some commentLength =>
      match readUInt32LE entryData 0, readUInt32LE entryData 4, readUInt32LE entryData 8,
          readUInt32LE entryData 12, readUInt32LE entryData 16 with
      | some group, some offset, some size, some dataType, some flags =>
        let name := asciiString ((entryData.drop 26).take nameLength)
        let sym : SymbolData :=
          { group, offset, size, dataType, flags, name,
            systemName := jsToUpper name,
            type := asciiString ((entryData.drop (27 + nameLength)).take typeLength),
            comment := asciiString
              ((entryData.drop (28 + nameLength + typeLength)).take commentLength) }
        .ok (buf.drop entryLength, jsObjectSet acc sym.name sym)
      | _, _, _, _, _ => .error "out of range"
    | _, _, _ => .error "out of range"
  else .ok (buf, acc)

/-- The while-loop of Client.getSymbols, with fuel: none means the given
number of iterations did not reach the loop exit, some (ok acc) models a
normal exit with the decoded table, some (error e) a thrown read error. -/
def getSymbolsLoop : Nat → List Nat → List (String × SymbolData) →
    Option (Except String (List (String × SymbolData)))
  | fuel, buf, acc =>
    if 26 ≤ buf.length then
      match fuel with
      | 0 => none
      | fuel' + 1 =>
        match symbolsStep buf acc with
        | .error e => some (.error e)
        | .ok (buf', acc') => getSymbolsLoop fuel' buf' acc'
    else some (.ok acc)

/-- A notification registry entry (src/main.ts interface
NotificationHandle); callbacks are kept abstract of type kappa. -/
structure NotificationHandle (κ : Type) where
  handle : Nat
  tagName : String
  callbacks : List κ

/-- The visible outcome of a monitorTag call for the handle bookkeeping:
an existing handle is reused, or a new subscription is made.  The
tooManyHandles constructor names the failure the specification predicts;
the code below never produces it. -/
inductive MonitorOutcome where
  | existing (handle : Nat)
  | subscribed (handle : Nat)
  | tooManyHandles
  deriving DecidableEq, Repr

/-- Shallow embedding of the registry logic of Client.monitorTag
(src/main.ts, lines 461-488), given the resolved tag's name and the
4-byte handle the server returns to the AddDeviceNotification request: if
an entry for the name exists, append the callback and return its handle;
otherwise subscribe and store a new entry.  No capacity check of any kind
is performed. -/
def monitorTagStep {κ : Type} (notifications : List (String × NotificationHandle κ))
    (tagName : String) (serverHandle : Nat) (cb : κ) :
    MonitorOutcome × List (String × NotificationHandle κ) :=
  match notifications.find? (fun e => e.1 == tagName) with
  | some e =>
    (.existing e.2.handle,
     notifications.map (fun e' =>
       if e'.1 == tagName then
         (e'.1, { e'.2 with callbacks := e'.2.callbacks ++ [cb] })
       else e'))
  | none =>
    (.subscribed serverHandle,
     jsObjectSet notifications tagName
       { handle := serverHandle, tagName := tagName, callbacks := [cb] })

/-- The transmission mode written by Client.subscribe (src/main.ts line
376): 4 = ServerOnChange in the TransmissionModes enum of src/ads.ts. -/
def subscribeTransmissionMode : Nat := 4

/-- The maxDelay written by Client.subscribe (src/main.ts line 377), in ms. -/
def subscribeMaxDelay : Nat := 10

/-- The cycleTime written by Client.subscribe (src/main.ts line 378), in ms. -/
def subscribeCycleTime : Nat := 10

/-- The 40-byte AddDeviceNotification payload built by Client.subscribe
(src/main.ts, lines 373-394): group, offset, size, transmission mode,
max delay and cycle time as little-endian u32, then 16 reserved zero
bytes.  The function takes no caller-supplied overrides - none exist. -/
def subscribeData (group offset size : Nat) : List Nat :=
  bytesLE 4 group ++ bytesLE 4 offset ++ bytesLE 4 size ++
  bytesLE 4 subscribeTransmissionMode ++ bytesLE 4 subscribeMaxDelay ++
  bytesLE 4 subscribeCycleTime ++ List.replicate 16 0

/-- The forEach over a notification handle's callbacks inside
Client.notificationHandler (src/main.ts line 748): callbacks run in
order; a throw aborts the remaining iterations and propagates.  Returns
how many callbacks were invoked (a throwing callback counts as invoked)
and the escaping exception, if any. -/
def forEachCallbacks {α ε : Type} (cbs : List (α → Except ε Unit)) (v : α) :
    Nat × Option ε :=
  match cbs with
  | [] => (0, none)
  | c :: rest =>
    match c v with
    | .error e => (1, some e)
    | .ok _ =>
      let r := forEachCallbacks rest v
      (r.1 + 1, r.2)

/-- The inner sample loop of Client.notificationHandler: read handle and
size, slice the payload, advance by 8+size. -/
def sampleLoop : Nat → List Nat → Option (List (Nat × List Nat) × List Nat)
  | 0, buf => some ([], buf)
  | n + 1, buf => do
    let some handle := readUInt32LE buf 0 | none
    let some size := readUInt32LE buf 4 | none
    let sample := (buf.drop 8).take size
    let rest ← sampleLoop n (buf.drop (8 + size))
    some ((handle, sample) :: rest.1, rest.2)

/-- The outer stamp loop of Client.notificationHandler (src/main.ts,
lines 719-755): per stamp, read the two timestamp words and the sample
count, then run the sample loop. -/
def stampLoop : Nat → List Nat → Option (List (Nat × List Nat))
  | 0, _ => some []
  | n + 1, buf => do
    let some _tsLow := readUInt32LE buf 0 | none
    let some _tsHigh := readUInt32LE buf 4 | none
    let some samples := readUInt32LE buf 8 | none
    let r ← sampleLoop samples (buf.drop 12)
    let rest ← stampLoop n r.2
    some (r.1 ++ rest)

/-- All (handle, payload) samples of a DeviceNotification frame body. -/
def parseNotificationSamples (data : List Nat) : Option (List (Nat × List Nat)) := do
  let some stamps := readUInt32LE data 0 | none
  stampLoop stamps (data.drop 4)

/-- The dispatch of one sample: look the handle up in the registry and,
when found, run every registered callback on the decoded value (here the
callbacks consume the raw sample; the value decoding itself is the codec
of Client.parse modelled in Beckhoff.Codec and is irrelevant to the
exception flow).  In the source this runs inside a detached promise
continuation with no catch handler, so the returned exception escapes as
an unhandled rejection; it is never emitted as an error event. -/
def dispatchSample {ε : Type} (registry : List (NotificationHandle (List Nat → Except ε Unit)))
    (handle : Nat) (sample : List Nat) : Option (Nat × Option ε) :=
  match registry.find? (fun nh => nh.handle == handle) with
  | some nh => some (forEachCallbacks nh.callbacks sample)
  | none => none

/-- Client.notificationHandler: parse the stamp/sample structure, then
dispatch every sample.  The sample loop itself is synchronous and each
sample's callback run is scheduled independently, so one sample's outcome
never affects another's - which the map makes explicit. -/
def notificationHandler {ε : Type}
    (registry : List (NotificationHandle (List Nat → Except ε Unit)))
    (data : List Nat) : Option (List (Option (Nat × Option ε))) :=
  (parseNotificationSamples data).map
    (fun samples => samples.map (fun hs => dispatchSample registry hs.1 hs.2))

end Beckhoff.Client

namespace Beckhoff.Connection

/-- MAX_SAFE_INVOKEID of the ADSConnection source (src/unnamed/part_003,
line 12): the largest invoke id, 2^32 - 1. -/
def MAX_SAFE_INVOKEID : Nat := 2 ^ 32 - 1

/-- REQUEST_TIMEOUT of the ADSConnection source (src/unnamed/part_003,
line 13): the per-request deadline in milliseconds. -/
def REQUEST_TIMEOUT : Nat := 3000

/-- The two request implementations in the sources: the legacy
Client.request of src/main.ts and ADSConnection.request of the
ADSConnection source (src/unnamed/part_003). -/
inductive RequestPath where
  | clientRequest
  | adsConnectionRequest
  deriving DecidableEq, Repr

/-- The delay passed to the per-request setTimeout: 30000 ms in
Client.request (src/main.ts line 324), REQUEST_TIMEOUT = 3000 ms in
ADSConnection.request (src/unnamed/part_003 line 152). -/
def requestTimeoutDelay : RequestPath → Nat
  | .clientRequest => 30000
  | .adsConnectionRequest => REQUEST_TIMEOUT

/-- The timeout callback of Client.request (src/main.ts lines 317-324):
if the invoke id still has a registered waiter, delete it and reject with
'request: timeout'. -/
def clientTimeoutFire (requests : List Nat) (invokeID : Nat) :
    List Nat × Option String :=
  if invokeID ∈ requests then
    (requests.filter (fun i => i ≠ invokeID), some "request: timeout")
  else (requests, none)

/-- The timeout callback of ADSConnection.request (src/unnamed/part_003,
lines 146-152): cleanup removes every listener registered for the
request's key, then the promise is rejected - with 'Request timeout' when
the socket is still present, 'Not connected' otherwise. -/
def adsTimeoutFire (listenerKeys : List String) (reqId : String)
    (socketPresent : Bool) : List String × String :=
  (listenerKeys.filter (fun k => k ≠ reqId),
   if socketPresent then "Request timeout" else "Not connected")

/-- The invoke-id allocation of ADSConnection.request (src/unnamed/part_003,
lines 92-97): when the counter has reached MAX_SAFE_INVOKEID it is reset
to 1 before use; the allocated id is the counter value, which is then
incremented.  Returns (allocated id, next counter state). -/
def adsNextInvoke (invokeID : Nat) : Nat × Nat :=
  let id := if invokeID ≥ MAX_SAFE_INVOKEID then 1 else invokeID
  (id, id + 1)

/-- The invoke-id allocation of the legacy Client.request (src/main.ts
line 286): a bare post-increment with no wrap-around. -/
def clientNextInvoke (invokeID : Nat) : Nat × Nat := (invokeID, invokeID + 1)

end Beckhoff.Connection

namespace Beckhoff.Claims

open Beckhoff.Ams Beckhoff.Codec Beckhoff.Client Beckhoff.Connection

set_option maxRecDepth 10000

/-- The arrAlarm symbol of the specification's array-indexing scenario:
ARRAY [1..2] OF BOOL at offset 0x20 with size 2. -/
def arrAlarmSym : SymbolData :=
  { group := 0x4040, offset := 0x20, size := 2, dataType := 33, flags := 0,
    name := ".arrAlarm", systemName := ".ARRALARM",
    type := "ARRAY [1..2] OF BOOL", comment := "" }

/-- Grows a registry of n distinct notification handles. -/
def exampleRegistry (n : Nat) : List (String × NotificationHandle Nat) :=
  (List.range n).map (fun i => ("t" ++ toString i,
    { handle := i, tagName := "t" ++ toString i, callbacks := [0] }))

/-- A sample callback list in which every callback succeeds. -/
def twoOkCallbacks : List (Nat → Except String Unit) :=
  [fun _ => .ok (), fun _ => .ok ()]

/-- The bTest symbol of the specification's primitive-read scenario. -/
def bTestSym : SymbolData :=
  { group := 0x4040, offset := 0x10, size := 1, dataType := 33, flags := 0,
    name := ".bTest", systemName := ".BTEST", type := "BOOL", comment := "" }

end Beckhoff.Claims

/-! Theorems of the development: first the helper lemmas, then every
claim theorem with its witness or counterexample. -/

namespace Beckhoff.Ams

/-- A slice that lies inside the left part of an append ignores the right part. -/
lemma slice_append_left (l x : List Nat) (off n : Nat) (h : off + n ≤ l.length) :
    ((l ++ x).drop off).take n = (l.drop off).take n := by
  rw [List.drop_append_eq_append_drop, List.take_append_eq_append_take]
  have h1 : off - l.length = 0 := by omega
  have h2 : n - (l.length - off) = 0 := by omega
  simp [h1, h2, List.length_drop]

/-- A u32 read inside the left part of an append ignores the right part. -/
lemma readUInt32LE_append_left (l x : List Nat) (off : Nat) (h : off + 4 ≤ l.length) :
    readUInt32LE (l ++ x) off = readUInt32LE l off := by
  unfold readUInt32LE
  rw [slice_append_left l x off 4 h]
  have h1 : off + 4 ≤ (l ++ x).length := by simp [List.length_append]; omega
  rw [if_pos h1, if_pos h]

/-- A slice confined to the first m elements is unchanged by truncation to m. -/
lemma slice_take (l : List Nat) (m off n : Nat) (h : off + n ≤ m) :
    ((l.take m).drop off).take n = (l.drop off).take n := by
  rw [List.drop_take, List.take_take]
  have hmin : min n (m - off) = n := by omega
  rw [hmin]

/-- A u32 read confined to the first m bytes is unchanged by truncation to m. -/
lemma readUInt32LE_take (l : List Nat) (m off : Nat) (h : off + 4 ≤ m) :
    readUInt32LE (l.take m) off = readUInt32LE l off := by
  unfold readUInt32LE
  rw [slice_take l m off 4 h]
  by_cases hl : off + 4 ≤ l.length
  · have h1 : off + 4 ≤ (l.take m).length := by
      simp only [List.length_take]; omega
    rw [if_pos h1, if_pos hl]
  · have h1 : ¬ off + 4 ≤ (l.take m).length := by
      simp only [List.length_take]; omega
    rw [if_neg h1, if_neg hl]

/-- Any strict prefix of a well-formed frame is an acceptable leftover. -/
lemma fragmentOk_take (f : List Nat) (m : Nat) (hwf : WellFormedFrame f)
    (hm : m < f.length) : FragmentOk (f.take m) := by
  obtain ⟨hlen, hread, -⟩ := hwf
  by_cases h6 : m < 6
  · exact Or.inl (by simp only [List.length_take]; omega)
  · refine Or.inr ⟨f.length - 6, ?_, ?_⟩
    · rw [readUInt32LE_take f m 2 (by omega)]; exact hread
    · simp only [List.length_take]; omega

/-- The empty leftover is acceptable. -/
lemma fragmentOk_nil : FragmentOk [] := Or.inl (by simp)

/-- A u32 read on a buffer shorter than 6 bytes at offset 2 throws. -/
lemma readUInt32LE_two_none (p : List Nat) (h : p.length < 6) :
    readUInt32LE p 2 = none := by
  unfold readUInt32LE
  rw [if_neg (by omega)]

/-- Characterisation of the frame-parse loop on a buffer made of whole
well-formed frames followed by an acceptable leftover: with enough fuel it
throws when the whole buffer is a sub-6-byte leftover, and otherwise
consumes exactly the frames and returns the leftover. -/
lemma parseLoopF_stream (fs : List (List Nat)) :
    ∀ (p : List Nat) (fuel : Nat), (∀ f ∈ fs, WellFormedFrame f) → FragmentOk p →
    fs.length ≤ fuel →
    (fs = [] → p.length < 6 → parseLoopF fuel (fs.flatten ++ p) = .error "out of range") ∧
    ((fs ≠ [] ∨ 6 ≤ p.length) → parseLoopF fuel (fs.flatten ++ p) = .ok (p, fs.filterMap getPacket)) := by
  induction fs with
  | nil =>
    intro p fuel _ hfrag _
    simp only [List.flatten_nil, List.nil_append, List.filterMap_nil]
    constructor
    · intro _ hlt
      rw [parseLoopF, readUInt32LE_two_none p hlt]
    · intro hor
      have h6 : 6 ≤ p.length := by
        rcases hor with h | h
        · exact absurd rfl h
        · exact h
      rcases hfrag with h | ⟨t, hread, hlt⟩
      · omega
      · rw [parseLoopF]
        simp only [hread]
        rw [if_neg (by omega)]
  | cons f fs ih =>
    intro p fuel hwf hfrag hfuel
    have hwff : WellFormedFrame f := hwf f (by simp)
    have hwfs : ∀ g ∈ fs, WellFormedFrame g := fun g hg => hwf g (by simp [hg])
    obtain ⟨hlen, hread, hpkt⟩ := hwff
    obtain ⟨pf, hpf⟩ := Option.isSome_iff_exists.mp hpkt
    have hdec : decode (f.drop 6) = .ok (some pf) := by
      unfold getPacket at hpf
      rcases hd : decode (f.drop 6) with e | o
      · rw [hd] at hpf; simp at hpf
      · rcases o with - | q
        · rw [hd] at hpf; simp at hpf
        · rw [hd] at hpf; simp at hpf; rw [hpf]
    constructor
    · intro hcontra; exact absurd hcontra (by simp)
    · intro _
      have hassoc : (f :: fs).flatten ++ p = f ++ (fs.flatten ++ p) := by
        simp [List.flatten_cons, List.append_assoc]
      have h32 : readUInt32LE (f ++ (fs.flatten ++ p)) 2 = some (f.length - 6) := by
        rw [readUInt32LE_append_left f (fs.flatten ++ p) 2 (by omega)]
        exact hread
      have hslice : ((f ++ (fs.flatten ++ p)).drop 6).take (f.length - 6) = f.drop 6 := by
        rw [slice_append_left f (fs.flatten ++ p) 6 (f.length - 6) (by omega)]
        have hld : (f.drop 6).length = f.length - 6 := by simp
        rw [← hld, List.take_length]
      have hdropf : (f ++ (fs.flatten ++ p)).drop (6 + (f.length - 6)) = fs.flatten ++ p := by
        have h66 : 6 + (f.length - 6) = f.length := by omega
        rw [h66, List.drop_left]
      have hcond : 6 + (f.length - 6) ≤ (f ++ (fs.flatten ++ p)).length ∧
          32 ≤ f.length - 6 := by
        constructor
        · simp only [List.length_append]; omega
        · omega
      have hfm : (f :: fs).filterMap getPacket = pf :: fs.filterMap getPacket :=
        List.filterMap_cons_some hpf
      rw [hassoc, parseLoopF]
      simp only [h32]
      rw [if_pos hcond]
      simp only [hslice, hdec, hdropf]
      by_cases hrest : 38 ≤ (fs.flatten ++ p).length
      · rw [if_pos hrest]
        rcases fuel with - | fuel'
        · simp at hfuel
        · have hor : fs ≠ [] ∨ 6 ≤ p.length := by
            rcases fs with - | ⟨g, gs⟩
            · right
              simp only [List.flatten_nil, List.nil_append] at hrest
              omega
            · left; simp
          have hih := (ih p fuel' hwfs hfrag (by simp at hfuel; omega)).2 hor
          simp only [hih, hfm]
      · rw [if_neg hrest]
        have hfsnil : fs = [] := by
          rcases fs with - | ⟨g, gs⟩
          · rfl
          · exfalso
            have hg : WellFormedFrame g := hwfs g (by simp)
            have h38 : 38 ≤ g.length := hg.1
            have hle : g.length ≤ ((g :: gs).flatten ++ p).length := by
              simp only [List.flatten_cons, List.length_append]; omega
            omega
        subst hfsnil
        simp only [List.flatten_nil, List.nil_append, hfm, List.filterMap_nil]

/-- A list of nonempty lists has no more elements than its flattening. -/
lemma length_le_flatten (fs : List (List Nat)) (h : ∀ f ∈ fs, 1 ≤ f.length) :
    fs.length ≤ fs.flatten.length := by
  induction fs with
  | nil => simp
  | cons f fs ih =>
    have h1 := h f (by simp)
    have h2 := ih (fun g hg => h g (by simp [hg]))
    simp only [List.length_cons, List.flatten_cons, List.length_append]
    omega

/-- Running src/ams.ts parse on whole well-formed frames followed by an
acceptable leftover consumes the frames and keeps the leftover. -/
lemma parse_stream_ok (fs : List (List Nat)) (p : List Nat)
    (hwf : ∀ f ∈ fs, WellFormedFrame f) (hfrag : FragmentOk p)
    (hor : fs ≠ [] ∨ 6 ≤ p.length) :
    parse (fs.flatten ++ p) = .ok (p, fs.filterMap getPacket) := by
  have hone : ∀ f ∈ fs, 1 ≤ f.length := fun f hf => by
    have := (hwf f hf).1; omega
  have hfuel : fs.length ≤ (fs.flatten ++ p).length := by
    have := length_le_flatten fs hone
    simp only [List.length_append]; omega
  exact (parseLoopF_stream fs p (fs.flatten ++ p).length hwf hfrag hfuel).2 hor

/-- Running src/ams.ts parse on a buffer shorter than 6 bytes throws
(the unconditional readUInt32LE at offset 2 is out of range). -/
lemma parse_short_err (p : List Nat) (hlt : p.length < 6) :
    parse p = .error "out of range" := by
  rw [parse, parseLoopF, readUInt32LE_two_none p hlt]

/-- Decomposition of an arbitrary split point inside a flattening: either
the split keeps everything on the left, or it falls strictly inside one of
the lists. -/
lemma flatten_split (fs : List (List Nat)) :
    ∀ k, k ≤ fs.flatten.length →
    (fs.flatten.take k = fs.flatten ∧ fs.flatten.drop k = []) ∨
    ∃ fs1 f fs2 m, fs = fs1 ++ f :: fs2 ∧ m < f.length ∧
      fs.flatten.take k = fs1.flatten ++ f.take m ∧
      fs.flatten.drop k = f.drop m ++ fs2.flatten := by
  induction fs with
  | nil =>
    intro k hk
    left
    simp at hk
    simp [hk]
  | cons f fs ih =>
    intro k hk
    by_cases hkf : k < f.length
    · right
      refine ⟨[], f, fs, k, by simp, hkf, ?_, ?_⟩
      · rw [List.flatten_cons, List.take_append_eq_append_take]
        have hz : k - f.length = 0 := by omega
        simp [hz]
      · rw [List.flatten_cons, List.drop_append_eq_append_drop]
        have hz : k - f.length = 0 := by omega
        simp [hz]
    · have hk' : k - f.length ≤ fs.flatten.length := by
        simp only [List.flatten_cons, List.length_append] at hk
        omega
      rcases ih (k - f.length) hk' with ⟨h1, h2⟩ | ⟨fs1, g, fs2, m, e1, e2, e3, e4⟩
      · left
        constructor
        · rw [List.flatten_cons, List.take_append_eq_append_take,
            List.take_of_length_le (by omega), h1]
        · rw [List.flatten_cons, List.drop_append_eq_append_drop,
            List.drop_of_length_le (by omega), h2]
          simp
      · right
        refine ⟨f :: fs1, g, fs2, m, by simp [e1], e2, ?_, ?_⟩
        · rw [List.flatten_cons, List.take_append_eq_append_take,
            List.take_of_length_le (by omega), e3, List.flatten_cons,
            List.append_assoc]
        · rw [List.flatten_cons, List.drop_append_eq_append_drop,
            List.drop_of_length_le (by omega), e4]
          simp

/-- Splitting a stream of well-formed frames at any point and feeding the
two chunks through the data handler emits exactly the packets of the
stream, ending with an empty residual buffer. -/
lemma dataHandler_split (fs : List (List Nat)) (k : Nat)
    (hwf : ∀ f ∈ fs, WellFormedFrame f) (hk : k ≤ fs.flatten.length) :
    (dataHandler none (fs.flatten.take k)).2 ++
      (dataHandler (dataHandler none (fs.flatten.take k)).1 (fs.flatten.drop k)).2 =
      fs.filterMap getPacket ∧
    (dataHandler (dataHandler none (fs.flatten.take k)).1 (fs.flatten.drop k)).1 = some [] := by
  rcases flatten_split fs k hk with ⟨h1, h2⟩ | ⟨fs1, f, fs2, m, e1, e2, e3, e4⟩
  · rw [h1, h2]
    rcases fs with - | ⟨g, gs⟩
    · simp only [List.flatten_nil, List.filterMap_nil]
      constructor <;> rfl
    · have hok : parse ((g :: gs).flatten) = .ok ([], (g :: gs).filterMap getPacket) := by
        have := parse_stream_ok (g :: gs) [] hwf fragmentOk_nil (Or.inl (by simp))
        simpa using this
      unfold dataHandler
      simp only [hok]
      have herr : parse (([] : List Nat) ++ []) = .error "out of range" :=
        parse_short_err _ (by simp)
      simp only [herr]
      simp
  · have hwf1 : ∀ x ∈ fs1, WellFormedFrame x := by
      intro x hx; exact hwf x (by rw [e1]; simp [hx])
    have hwff : WellFormedFrame f := hwf f (by rw [e1]; simp)
    have hwf2 : ∀ x ∈ fs2, WellFormedFrame x := by
      intro x hx; exact hwf x (by rw [e1]; simp [hx])
    have hfrag : FragmentOk (f.take m) := fragmentOk_take f m hwff e2
    have hlenm : (f.take m).length = m := by
      simp only [List.length_take]; omega
    have hfeed1 : dataHandler none (fs.flatten.take k) =
        (some (f.take m), fs1.filterMap getPacket) := by
      rw [e3]
      unfold dataHandler
      by_cases hc : fs1 = [] ∧ m < 6
      · obtain ⟨hc1, hc2⟩ := hc
        subst hc1
        have herr : parse (([] : List (List Nat)).flatten ++ f.take m) = .error "out of range" := by
          simp only [List.flatten_nil, List.nil_append]
          exact parse_short_err _ (by omega)
        simp only [herr]
        simp
      · have hor : fs1 ≠ [] ∨ 6 ≤ (f.take m).length := by
          rcases Decidable.em (fs1 = []) with he | he
          · right
            rw [hlenm]
            have hm6 : ¬ m < 6 := fun hm => hc ⟨he, hm⟩
            omega
          · left; exact he
        have hok := parse_stream_ok fs1 (f.take m) hwf1 hfrag hor
        simp only [hok]
    have hfeed2 : dataHandler (some (f.take m)) (fs.flatten.drop k) =
        (some [], (f :: fs2).filterMap getPacket) := by
      rw [e4]
      unfold dataHandler
      have hbuf : f.take m ++ (f.drop m ++ fs2.flatten) = (f :: fs2).flatten ++ [] := by
        rw [← List.append_assoc, List.take_append_drop]
        simp [List.flatten_cons]
      simp only [hbuf]
      have hok := parse_stream_ok (f :: fs2) [] (by
        intro x hx
        rcases List.mem_cons.mp hx with hx | hx
        · rw [hx]; exact hwff
        · exact hwf2 x hx) fragmentOk_nil (Or.inl (by simp))
      simp only [hok]
    refine ⟨?_, ?_⟩
    · simp only [hfeed1, hfeed2]
      rw [← List.filterMap_append, ← e1]
    · simp only [hfeed1, hfeed2]

example : WellFormedFrame frame42 := by decide

example : frame40.length = 40 ∧ readUInt32LE frame40 2 = some 34 := by decide

example : (Ams.decode (frame40.drop 6)).isOk = false := by decide

example : (List.range 42).all
    (fun j => ((feedBytes (frame42.take j)).2).isEmpty) = true := by decide

example : ((feedBytes frame42).2).length = 1 ∧ (feedBytes frame42).1 = some [] := by decide

example : (List.range 41).all
    (fun j => ((feedBytes (frame40.take j)).2).isEmpty) = true := by decide

end Beckhoff.Ams

namespace Beckhoff.Codec

/-- bytesLE always produces exactly w bytes. -/
lemma bytesLE_length (w : Nat) : ∀ n, (bytesLE w n).length = w := by
  induction w with
  | zero => intro n; simp [bytesLE]
  | succ w ih => intro n; simp [bytesLE, ih]

/-- Little-endian readback of a little-endian serialisation. -/
lemma leVal_bytesLE (w : Nat) : ∀ n, leVal (bytesLE w n) = n % 256 ^ w := by
  induction w with
  | zero => intro n; simp [bytesLE, leVal, Nat.mod_one]
  | succ w ih =>
    intro n
    have hsucc : (256 : Nat) ^ (w + 1) = 256 * 256 ^ w := by
      rw [Nat.pow_succ, Nat.mul_comm]
    rw [hsucc, @Nat.mod_mul 256 (256 ^ w) n]
    simp [bytesLE, leVal, ih]

/-- Taking w elements of a w-byte serialisation is the identity. -/
lemma take_bytesLE (w n : Nat) : (bytesLE w n).take w = bytesLE w n :=
  List.take_of_length_le (by rw [bytesLE_length])

lemma readUInt8_bytesLE (n : Nat) (h : n < 256) : readUInt8 (bytesLE 1 n) 0 = some n := by
  simp [readUInt8, bytesLE, byteAt, bytesLE_length, Nat.mod_eq_of_lt h]

lemma readUInt16LE_bytesLE (n : Nat) (h : n < 65536) :
    readUInt16LE (bytesLE 2 n) 0 = some n := by
  unfold readUInt16LE
  rw [if_pos (by rw [bytesLE_length])]
  rw [List.drop_zero, take_bytesLE, leVal_bytesLE]
  norm_num [Nat.mod_eq_of_lt h]

lemma readUInt32LE_bytesLE (n : Nat) (h : n < 4294967296) :
    readUInt32LE (bytesLE 4 n) 0 = some n := by
  unfold readUInt32LE
  rw [if_pos (by rw [bytesLE_length])]
  rw [List.drop_zero, take_bytesLE, leVal_bytesLE]
  norm_num [Nat.mod_eq_of_lt h]

lemma readBigUInt64LE_bytesLE (n : Nat) (h : n < 18446744073709551616) :
    readBigUInt64LE (bytesLE 8 n) 0 = some n := by
  unfold readBigUInt64LE
  rw [if_pos (by rw [bytesLE_length])]
  rw [List.drop_zero, take_bytesLE, leVal_bytesLE]
  norm_num [Nat.mod_eq_of_lt h]

lemma twosRoundtrip1 (v : Int) (h1 : -128 ≤ v) (h2 : v < 128) :
    fromTwosComplement 1 (toTwosComplement 1 v) = v ∧ toTwosComplement 1 v < 256 := by
  unfold fromTwosComplement toTwosComplement
  norm_num
  omega

lemma twosRoundtrip2 (v : Int) (h1 : -32768 ≤ v) (h2 : v < 32768) :
    fromTwosComplement 2 (toTwosComplement 2 v) = v ∧ toTwosComplement 2 v < 65536 := by
  unfold fromTwosComplement toTwosComplement
  norm_num
  omega

lemma twosRoundtrip4 (v : Int) (h1 : -2147483648 ≤ v) (h2 : v < 2147483648) :
    fromTwosComplement 4 (toTwosComplement 4 v) = v ∧ toTwosComplement 4 v < 4294967296 := by
  unfold fromTwosComplement toTwosComplement
  norm_num
  omega

lemma twosRoundtrip8 (v : Int) (h1 : -9223372036854775808 ≤ v) (h2 : v < 9223372036854775808) :
    fromTwosComplement 8 (toTwosComplement 8 v) = v ∧
      toTwosComplement 8 v < 18446744073709551616 := by
  unfold fromTwosComplement toTwosComplement
  norm_num
  omega

/-! Branch-reduction lemmas for the two codec switches: each rewrites the
type-name scrutinee to the literal of its family and lets the match reduce. -/

/-- Reduction of Client.encode on a STRING-prefixed type name: the value's
latin-1 bytes are returned unpadded. -/
lemma encodePrim_str (tzms : Int) (t : Tag) (s : String)
    (h : (stripType t).take 6 = "STRING") :
    encodePrim tzms t (.str s) =
      .ok { offset := t.offset, size := t.size, data := latin1Bytes s } := by
  unfold encodePrim
  split
  all_goals first
    | (rename_i heq; rw [heq] at h; exact absurd h (by decide))
    | (rw [if_pos h])

/-- Reduction of Client.parse on a STRING-prefixed type name: take
tag.size bytes, truncate at the first NUL (empty when there is none). -/
lemma parsePrim_str (tzms : Int) (t : Tag) (data : List Nat)
    (h : (stripType t).take 6 = "STRING") :
    parsePrim tzms t data =
      .ok (.str (latin1String (nulTruncBytes (data.take t.size)))) := by
  unfold parsePrim
  split
  all_goals first
    | (rename_i heq; rw [heq] at h; exact absurd h (by decide))
    | (rw [if_pos h])

/-- The HH:MM rendering of a valid wall time parses back to its components. -/
lemma parseHHMM_timeHHMM : ∀ hh < 24, ∀ mm < 60,
    parseHHMM (timeHHMM hh mm) = some (hh, mm) := by decide

lemma encodePrim_bool_red (tzms : Int) (t : Tag) (v : JsValue)
    (h : stripType t = "BOOL" ∨ stripType t = "BIT") :
    encodePrim tzms t v =
      .ok { offset := t.offset, size := t.size, data := [if jsTruthy v then 1 else 0] } := by
  unfold encodePrim
  rcases h with h | h <;> (rw [h]; rfl)

lemma encodePrim_uint8_red (tzms : Int) (t : Tag) (n : Int)
    (h : stripType t = "BYTE" ∨ stripType t = "USINT" ∨ stripType t = "UINT8") :
    encodePrim tzms t (.num n) =
      if 0 ≤ n ∧ n < 256 then
        .ok { offset := t.offset, size := t.size, data := bytesLE 1 n.toNat }
      else .error "out of range" := by
  unfold encodePrim
  rcases h with h | h | h <;> (rw [h]; rfl)

lemma encodePrim_int8_red (tzms : Int) (t : Tag) (n : Int)
    (h : stripType t = "SINT" ∨ stripType t = "INT8") :
    encodePrim tzms t (.num n) =
      if -128 ≤ n ∧ n < 128 then
        .ok { offset := t.offset, size := t.size, data := bytesLE 1 (toTwosComplement 1 n) }
      else .error "out of range" := by
  unfold encodePrim
  rcases h with h | h <;> (rw [h]; rfl)

lemma encodePrim_uint16_red (tzms : Int) (t : Tag) (n : Int)
    (h : stripType t = "UINT" ∨ stripType t = "WORD" ∨ stripType t = "UINT16") :
    encodePrim tzms t (.num n) =
      if 0 ≤ n ∧ n < 65536 then
        .ok { offset := t.offset, size := t.size, data := bytesLE 2 n.toNat }
      else .error "out of range" := by
  unfold encodePrim
  rcases h with h | h | h <;> (rw [h]; rfl)

lemma encodePrim_int16_red (tzms : Int) (t : Tag) (n : Int)
    (h : stripType t = "INT" ∨ stripType t = "INT16") :
    encodePrim tzms t (.num n) =
      if -32768 ≤ n ∧ n < 32768 then
        .ok { offset := t.offset, size := t.size, data := bytesLE 2 (toTwosComplement 2 n) }
      else .error "out of range" := by
  unfold encodePrim
  rcases h with h | h <;> (rw [h]; rfl)

lemma encodePrim_uint32_red (tzms : Int) (t : Tag) (n : Int)
    (h : stripType t = "DWORD" ∨ stripType t = "UDINT" ∨ stripType t = "UINT32") :
    encodePrim tzms t (.num n) =
      if 0 ≤ n ∧ n < 4294967296 then
        .ok { offset := t.offset, size := t.size, data := bytesLE 4 n.toNat }
      else .error "out of range" := by
  unfold encodePrim
  rcases h with h | h | h <;> (rw [h]; rfl)

lemma encodePrim_int32_red (tzms : Int) (t : Tag) (n : Int)
    (h : stripType t = "DINT" ∨ stripType t = "INT32") :
    encodePrim tzms t (.num n) =
      if -2147483648 ≤ n ∧ n < 2147483648 then
        .ok { offset := t.offset, size := t.size, data := bytesLE 4 (toTwosComplement 4 n) }
      else .error "out of range" := by
  unfold encodePrim
  rcases h with h | h <;> (rw [h]; rfl)

lemma encodePrim_real_red (tzms : Int) (t : Tag) (bits : Nat)
    (h : stripType t = "REAL") :
    encodePrim tzms t (.real32 bits) =
      if bits < 4294967296 then
        .ok { offset := t.offset, size := t.size, data := bytesLE 4 bits }
      else .error "out of range" := by
  unfold encodePrim
  rw [h]
  rfl

lemma encodePrim_ulint_red (tzms : Int) (t : Tag) (n : Int)
    (h : stripType t = "ULINT") :
    encodePrim tzms t (.big n) =
      if 0 ≤ n ∧ n < 18446744073709551616 then
        .ok { offset := t.offset, size := t.size, data := bytesLE 8 n.toNat }
      else .error "out of range" := by
  unfold encodePrim
  rw [h]
  rfl

lemma encodePrim_lint_red (tzms : Int) (t : Tag) (n : Int)
    (h : stripType t = "LINT") :
    encodePrim tzms t (.big n) =
      if -9223372036854775808 ≤ n ∧ n < 9223372036854775808 then
        .ok { offset := t.offset, size := t.size, data := bytesLE 8 (toTwosComplement 8 n) }
      else .error "out of range" := by
  unfold encodePrim
  rw [h]
  rfl

lemma encodePrim_lreal_red (tzms : Int) (t : Tag) (bits : Nat)
    (h : stripType t = "LREAL") :
    encodePrim tzms t (.real64 bits) =
      if bits < 18446744073709551616 then
        .ok { offset := t.offset, size := t.size, data := bytesLE 8 bits }
      else .error "out of range" := by
  unfold encodePrim
  rw [h]
  rfl

lemma encodePrim_date_red (tzms : Int) (t : Tag) (ms : Int)
    (h : stripType t = "DATE" ∨ stripType t = "DT" ∨ stripType t = "DATE_AND_TIME") :
    encodePrim tzms t (.date ms) =
      if ms % 1000 = 0 ∧ 0 ≤ ms ∧ ms / 1000 < 4294967296 then
        .ok { offset := t.offset, size := t.size, data := bytesLE 4 (ms / 1000).toNat }
      else .error "out of range" := by
  unfold encodePrim
  rcases h with h | h | h <;> (rw [h]; rfl)

lemma encodePrim_time_red (tzms : Int) (t : Tag) (s : String)
    (h : stripType t = "TIME" ∨ stripType t = "TOD" ∨ stripType t = "TIME_OF_DAY") :
    encodePrim tzms t (.str s) =
      match parseHHMM s with
      | some (hh, mm) =>
        if 0 ≤ ((hh * 60 + mm : Nat) : Int) * 60000 - tzms ∧
            ((hh * 60 + mm : Nat) : Int) * 60000 - tzms < 4294967296 then
          .ok { offset := t.offset, size := t.size,
                data := bytesLE 4 (((hh * 60 + mm : Nat) : Int) * 60000 - tzms).toNat }
        else .error "out of range"
      | none => .error "out of range" := by
  unfold encodePrim
  rcases h with h | h | h <;> (rw [h]; rfl)

lemma encodePrim_void_red (tzms : Int) (t : Tag) (v : JsValue)
    (h : stripType t = "PVOID" ∨ stripType t = "OTCID") :
    encodePrim tzms t v =
      .error "encode: writing datatypes PVOID and OTCID is not supported" := by
  unfold encodePrim
  rcases h with h | h <;> (rw [h]; rfl)

lemma encodePrim_real80_red (tzms : Int) (t : Tag) (v : JsValue)
    (h : stripType t = "REAL80") :
    encodePrim tzms t v = .error "encode: datatype was not found or recogniced" := by
  unfold encodePrim
  rw [h]
  rfl

lemma parsePrim_bool_red (tzms : Int) (t : Tag) (data : List Nat)
    (h : stripType t = "BOOL" ∨ stripType t = "BIT") :
    parsePrim tzms t data =
      match readUInt8 data 0 with
      | some b => .ok (.bool (b > 0))
      | none => .error "out of range" := by
  unfold parsePrim
  rcases h with h | h <;> (rw [h]; rfl)

lemma parsePrim_uint8_red (tzms : Int) (t : Tag) (data : List Nat)
    (h : stripType t = "BYTE" ∨ stripType t = "USINT" ∨ stripType t = "UINT8") :
    parsePrim tzms t data =
      match readUInt8 data 0 with
      | some b => .ok (.num b)
      | none => .error "out of range" := by
  unfold parsePrim
  rcases h with h | h | h <;> (rw [h]; rfl)

lemma parsePrim_int8_red (tzms : Int) (t : Tag) (data : List Nat)
    (h : stripType t = "SINT" ∨ stripType t = "INT8") :
    parsePrim tzms t data =
      match readUInt8 data 0 with
      | some b => .ok (.num (fromTwosComplement 1 b))
      | none => .error "out of range" := by
  unfold parsePrim
  rcases h with h | h <;> (rw [h]; rfl)

lemma parsePrim_uint16_red (tzms : Int) (t : Tag) (data : List Nat)
    (h : stripType t = "UINT" ∨ stripType t = "WORD" ∨ stripType t = "UINT16") :
    parsePrim tzms t data =
      match readUInt16LE data 0 with
      | some u => .ok (.num u)
      | none => .error "out of range" := by
  unfold parsePrim
  rcases h with h | h | h <;> (rw [h]; rfl)

lemma parsePrim_int16_red (tzms : Int) (t : Tag) (data : List Nat)
    (h : stripType t = "INT" ∨ stripType t = "INT16") :
    parsePrim tzms t data =
      match readUInt16LE data 0 with
      | some u => .ok (.num (fromTwosComplement 2 u))
      | none => .error "out of range" := by
  unfold parsePrim
  rcases h with h | h <;> (rw [h]; rfl)

lemma parsePrim_uint32_red (tzms : Int) (t : Tag) (data : List Nat)
    (h : stripType t = "DWORD" ∨ stripType t = "UDINT" ∨ stripType t = "UINT32") :
    parsePrim tzms t data =
      match readUInt32LE data 0 with
      | some u => .ok (.num u)
      | none => .error "out of range" := by
  unfold parsePrim
  rcases h with h | h | h <;> (rw [h]; rfl)

lemma parsePrim_int32_red (tzms : Int) (t : Tag) (data : List Nat)
    (h : stripType t = "DINT" ∨ stripType t = "INT32") :
    parsePrim tzms t data =
      match readUInt32LE data 0 with
      | some u => .ok (.num (fromTwosComplement 4 u))
      | none => .error "out of range" := by
  unfold parsePrim
  rcases h with h | h <;> (rw [h]; rfl)

lemma parsePrim_real_red (tzms : Int) (t : Tag) (data : List Nat)
    (h : stripType t = "REAL") :
    parsePrim tzms t data =
      match readUInt32LE data 0 with
      | some u => .ok (.real32 u)
      | none => .error "out of range" := by
  unfold parsePrim
  rw [h]
  rfl

lemma parsePrim_ulint_red (tzms : Int) (t : Tag) (data : List Nat)
    (h : stripType t = "ULINT") :
    parsePrim tzms t data =
      match readBigUInt64LE data 0 with
      | some u => .ok (.big u)
      | none => .error "out of range" := by
  unfold parsePrim
  rw [h]
  rfl

lemma parsePrim_lint_red (tzms : Int) (t : Tag) (data : List Nat)
    (h : stripType t = "LINT") :
    parsePrim tzms t data =
      match readBigUInt64LE data 0 with
      | some u => .ok (.big (fromTwosComplement 8 u))
      | none => .error "out of range" := by
  unfold parsePrim
  rw [h]
  rfl

lemma parsePrim_lreal_red (tzms : Int) (t : Tag) (data : List Nat)
    (h : stripType t = "LREAL") :
    parsePrim tzms t data =
      match readBigUInt64LE data 0 with
      | some u => .ok (.real64 u)
      | none => .error "out of range" := by
  unfold parsePrim
  rw [h]
  rfl

lemma parsePrim_date_red (tzms : Int) (t : Tag) (data : List Nat)
    (h : stripType t = "DATE" ∨ stripType t = "DT" ∨ stripType t = "DATE_AND_TIME") :
    parsePrim tzms t data =
      match readUInt32LE data 0 with
      | some secs => .ok (.date (secs * 1000))
      | none => .error "out of range" := by
  unfold parsePrim
  rcases h with h | h | h <;> (rw [h]; rfl)

lemma parsePrim_time_red (tzms : Int) (t : Tag) (data : List Nat)
    (h : stripType t = "TIME" ∨ stripType t = "TOD" ∨ stripType t = "TIME_OF_DAY") :
    parsePrim tzms t data =
      match readUInt32LE data 0 with
      | some ms =>
        .ok (.str (timeHHMM ((((ms : Int) + tzms) / 3600000) % 24).toNat
          ((((ms : Int) + tzms) / 60000 % 60).toNat)))
      | none => .error "out of range" := by
  unfold parsePrim
  rcases h with h | h | h <;> (rw [h]; rfl)

lemma parsePrim_void_red (tzms : Int) (t : Tag) (data : List Nat)
    (h : stripType t = "PVOID" ∨ stripType t = "OTCID") :
    parsePrim tzms t data =
      match readUInt32LE data 0 with
      | some u => .ok (.num u)
      | none => .error "out of range" := by
  unfold parsePrim
  rcases h with h | h <;> (rw [h]; rfl)

lemma parsePrim_real80_red (tzms : Int) (t : Tag) (data : List Nat)
    (h : stripType t = "REAL80") :
    parsePrim tzms t data = .ok .null := by
  unfold parsePrim
  rw [h]
  rfl

/-- The primitive layer of the round-trip result: for a tag of a
primitive type family and a value of that type, decoding the encoding
returns the value, except that REAL80 and VOID-pointer (PVOID/OTCID)
tags fail to encode and STRING tags return the portion of the
(size-truncated) value before its first NUL. -/
lemma roundtripPrim (tzms : Int) (t : Tag) (v : JsValue)
    (h : WellTypedPrim tzms t v) : RoundtripSpec tzms t v := by
  cases h with
  | boolv b h =>
    unfold RoundtripSpec
    rw [if_neg (by rcases h with h | h <;> (rw [h]; decide)),
      if_neg (by rcases h with h | h <;> (rw [h]; decide))]
    refine ⟨{ offset := t.offset, size := t.size, data := [if jsTruthy (.bool b) then 1 else 0] },
      encodePrim_bool_red tzms t _ h, ?_⟩
    rw [parsePrim_bool_red tzms t _ h]
    simp only [jsTruthy]
    cases b <;> simp [readUInt8, byteAt]
  | uint8v n h h0 h1 =>
    unfold RoundtripSpec
    rw [if_neg (by rcases h with h | h | h <;> (rw [h]; decide)),
      if_neg (by rcases h with h | h | h <;> (rw [h]; decide))]
    refine ⟨{ offset := t.offset, size := t.size, data := bytesLE 1 n.toNat }, ?_, ?_⟩
    · rw [encodePrim_uint8_red tzms t n h, if_pos ⟨h0, h1⟩]
    · rw [parsePrim_uint8_red tzms t _ h]
      simp only [readUInt8_bytesLE n.toNat (by omega)]
      rw [Int.toNat_of_nonneg h0]
  | int8v n h h0 h1 =>
    unfold RoundtripSpec
    rw [if_neg (by rcases h with h | h <;> (rw [h]; decide)),
      if_neg (by rcases h with h | h <;> (rw [h]; decide))]
    refine ⟨{ offset := t.offset, size := t.size, data := bytesLE 1 (toTwosComplement 1 n) }, ?_, ?_⟩
    · rw [encodePrim_int8_red tzms t n h, if_pos ⟨h0, h1⟩]
    · rw [parsePrim_int8_red tzms t _ h]
      simp only [readUInt8_bytesLE _ (twosRoundtrip1 n h0 h1).2]
      rw [(twosRoundtrip1 n h0 h1).1]
  | uint16v n h h0 h1 =>
    unfold RoundtripSpec
    rw [if_neg (by rcases h with h | h | h <;> (rw [h]; decide)),
      if_neg (by rcases h with h | h | h <;> (rw [h]; decide))]
    refine ⟨{ offset := t.offset, size := t.size, data := bytesLE 2 n.toNat }, ?_, ?_⟩
    · rw [encodePrim_uint16_red tzms t n h, if_pos ⟨h0, h1⟩]
    · rw [parsePrim_uint16_red tzms t _ h]
      simp only [readUInt16LE_bytesLE n.toNat (by omega)]
      rw [Int.toNat_of_nonneg h0]
  | int16v n h h0 h1 =>
    unfold RoundtripSpec
    rw [if_neg (by rcases h with h | h <;> (rw [h]; decide)),
      if_neg (by rcases h with h | h <;> (rw [h]; decide))]
    refine ⟨{ offset := t.offset, size := t.size, data := bytesLE 2 (toTwosComplement 2 n) }, ?_, ?_⟩
    · rw [encodePrim_int16_red tzms t n h, if_pos ⟨h0, h1⟩]
    · rw [parsePrim_int16_red tzms t _ h]
      simp only [readUInt16LE_bytesLE _ (twosRoundtrip2 n h0 h1).2]
      rw [(twosRoundtrip2 n h0 h1).1]
  | uint32v n h h0 h1 =>
    unfold RoundtripSpec
    rw [if_neg (by rcases h with h | h | h <;> (rw [h]; decide)),
      if_neg (by rcases h with h | h | h <;> (rw [h]; decide))]
    refine ⟨{ offset := t.offset, size := t.size, data := bytesLE 4 n.toNat }, ?_, ?_⟩
    · rw [encodePrim_uint32_red tzms t n h, if_pos ⟨h0, h1⟩]
    · rw [parsePrim_uint32_red tzms t _ h]
      simp only [readUInt32LE_bytesLE n.toNat (by omega)]
      rw [Int.toNat_of_nonneg h0]
  | int32v n h h0 h1 =>
    unfold RoundtripSpec
    rw [if_neg (by rcases h with h | h <;> (rw [h]; decide)),
      if_neg (by rcases h with h | h <;> (rw [h]; decide))]
    refine ⟨{ offset := t.offset, size := t.size, data := bytesLE 4 (toTwosComplement 4 n) }, ?_, ?_⟩
    · rw [encodePrim_int32_red tzms t n h, if_pos ⟨h0, h1⟩]
    · rw [parsePrim_int32_red tzms t _ h]
      simp only [readUInt32LE_bytesLE _ (twosRoundtrip4 n h0 h1).2]
      rw [(twosRoundtrip4 n h0 h1).1]
  | realv bits h h1 =>
    unfold RoundtripSpec
    rw [if_neg (by rw [h]; decide), if_neg (by rw [h]; decide)]
    refine ⟨{ offset := t.offset, size := t.size, data := bytesLE 4 bits }, ?_, ?_⟩
    · rw [encodePrim_real_red tzms t bits h, if_pos h1]
    · rw [parsePrim_real_red tzms t _ h]
      simp only [readUInt32LE_bytesLE bits h1]
  | ulintv n h h0 h1 =>
    unfold RoundtripSpec
    rw [if_neg (by rw [h]; decide), if_neg (by rw [h]; decide)]
    refine ⟨{ offset := t.offset, size := t.size, data := bytesLE 8 n.toNat }, ?_, ?_⟩
    · rw [encodePrim_ulint_red tzms t n h, if_pos ⟨h0, h1⟩]
    · rw [parsePrim_ulint_red tzms t _ h]
      simp only [readBigUInt64LE_bytesLE n.toNat (by omega)]
      rw [Int.toNat_of_nonneg h0]
  | lintv n h h0 h1 =>
    unfold RoundtripSpec
    rw [if_neg (by rw [h]; decide), if_neg (by rw [h]; decide)]
    refine ⟨{ offset := t.offset, size := t.size, data := bytesLE 8 (toTwosComplement 8 n) }, ?_, ?_⟩
    · rw [encodePrim_lint_red tzms t n h, if_pos ⟨h0, h1⟩]
    · rw [parsePrim_lint_red tzms t _ h]
      simp only [readBigUInt64LE_bytesLE _ (twosRoundtrip8 n h0 h1).2]
      rw [(twosRoundtrip8 n h0 h1).1]
  | lrealv bits h h1 =>
    unfold RoundtripSpec
    rw [if_neg (by rw [h]; decide), if_neg (by rw [h]; decide)]
    refine ⟨{ offset := t.offset, size := t.size, data := bytesLE 8 bits }, ?_, ?_⟩
    · rw [encodePrim_lreal_red tzms t bits h, if_pos h1]
    · rw [parsePrim_lreal_red tzms t _ h]
      simp only [readBigUInt64LE_bytesLE bits h1]
  | datev ms h hmod h0 h1 =>
    unfold RoundtripSpec
    rw [if_neg (by rcases h with h | h | h <;> (rw [h]; decide)),
      if_neg (by rcases h with h | h | h <;> (rw [h]; decide))]
    refine ⟨{ offset := t.offset, size := t.size, data := bytesLE 4 (ms / 1000).toNat }, ?_, ?_⟩
    · rw [encodePrim_date_red tzms t ms h, if_pos ⟨hmod, h0, h1⟩]
    · rw [parsePrim_date_red tzms t _ h]
      simp only [readUInt32LE_bytesLE (ms / 1000).toNat (by omega)]
      have e : (((ms / 1000).toNat : Int) * 1000) = ms := by
        rw [Int.toNat_of_nonneg (Int.ediv_nonneg h0 (by norm_num))]
        omega
      rw [e]
  | timev hh mm h hh24 hm60 htz0 htz1 =>
    unfold RoundtripSpec
    rw [if_neg (by rcases h with h | h | h <;> (rw [h]; decide)),
      if_neg (by rcases h with h | h | h <;> (rw [h]; decide))]
    refine ⟨{ offset := t.offset, size := t.size, data := bytesLE 4 (((hh * 60 + mm : Nat) : Int) * 60000 - tzms).toNat }, ?_, ?_⟩
    · rw [encodePrim_time_red tzms t (timeHHMM hh mm) h]
      simp only [parseHHMM_timeHHMM hh hh24 mm hm60]
      rw [if_pos ⟨htz0, htz1⟩]
    · rw [parsePrim_time_red tzms t _ h]
      simp only [readUInt32LE_bytesLE (((hh * 60 + mm : Nat) : Int) * 60000 - tzms).toNat (by omega)]
      have e1 : (((((((hh * 60 + mm : Nat) : Int) * 60000 - tzms).toNat : Int) + tzms) / 3600000) % 24).toNat = hh := by
        rw [Int.toNat_of_nonneg htz0]
        push_cast
        omega
      have e2 : (((((((hh * 60 + mm : Nat) : Int) * 60000 - tzms).toNat : Int) + tzms) / 60000 % 60).toNat) = mm := by
        rw [Int.toNat_of_nonneg htz0]
        push_cast
        omega
      rw [e1, e2]
  | voidv v h =>
    unfold RoundtripSpec
    have hc : stripType t = "PVOID" ∨ stripType t = "OTCID" ∨ stripType t = "REAL80" := by
      rcases h with h | h
      · exact Or.inl h
      · exact Or.inr (Or.inl h)
    rw [if_pos hc]
    exact ⟨_, encodePrim_void_red tzms t v h⟩
  | real80v v h =>
    unfold RoundtripSpec
    rw [if_pos (Or.inr (Or.inr h))]
    exact ⟨_, encodePrim_real80_red tzms t v h⟩
  | strv s h =>
    unfold RoundtripSpec
    rw [if_neg (by rintro (hc | hc | hc) <;> (rw [hc] at h; exact absurd h (by decide))),
      if_pos h]
    exact ⟨s, rfl, encodePrim_str tzms t s h, parsePrim_str tzms t (latin1Bytes s) h⟩


lemma readUInt8_bytesLE_append (n : Nat) (h : n < 256) (rest : List Nat) :
    readUInt8 (bytesLE 1 n ++ rest) 0 = some n := by
  simp [readUInt8, bytesLE, byteAt, Nat.mod_eq_of_lt h]

lemma readUInt16LE_bytesLE_append (n : Nat) (h : n < 65536) (rest : List Nat) :
    readUInt16LE (bytesLE 2 n ++ rest) 0 = some n := by
  unfold readUInt16LE
  rw [if_pos (by simp [bytesLE_length])]
  rw [List.drop_zero, List.take_left' (bytesLE_length 2 n), leVal_bytesLE]
  norm_num [Nat.mod_eq_of_lt h]

lemma readUInt32LE_bytesLE_append (n : Nat) (h : n < 4294967296) (rest : List Nat) :
    readUInt32LE (bytesLE 4 n ++ rest) 0 = some n := by
  unfold readUInt32LE
  rw [if_pos (by simp [bytesLE_length])]
  rw [List.drop_zero, List.take_left' (bytesLE_length 4 n), leVal_bytesLE]
  norm_num [Nat.mod_eq_of_lt h]

lemma readBigUInt64LE_bytesLE_append (n : Nat) (h : n < 18446744073709551616)
    (rest : List Nat) :
    readBigUInt64LE (bytesLE 8 n ++ rest) 0 = some n := by
  unfold readBigUInt64LE
  rw [if_pos (by simp [bytesLE_length])]
  rw [List.drop_zero, List.take_left' (bytesLE_length 8 n), leVal_bytesLE]
  norm_num [Nat.mod_eq_of_lt h]

lemma switchType_of_width (ty : String) (h : 0 < typeWidth ty) : switchType ty = true := by
  unfold typeWidth at h
  split at h
  · rename_i hc
    simp only [Bool.or_eq_true, beq_iff_eq] at hc
    casesm* _ ∨ _ <;> (subst_vars; decide)
  · split at h
    · rename_i hc
      simp only [Bool.or_eq_true, beq_iff_eq] at hc
      casesm* _ ∨ _ <;> (subst_vars; decide)
    · split at h
      · rename_i hc
        simp only [Bool.or_eq_true, beq_iff_eq] at hc
        casesm* _ ∨ _ <;> (subst_vars; decide)
      · split at h
        · rename_i hc
          simp only [Bool.or_eq_true, beq_iff_eq] at hc
          casesm* _ ∨ _ <;> (subst_vars; decide)
        · exact absurd h (by decide)

lemma wellTypedPrim_gate (tzms : Int) (t : Tag) (v : JsValue)
    (h : WellTypedPrim tzms t v) (h80 : stripType t ≠ "REAL80") :
    switchType (stripType t) = true ∨ (stripType t).take 6 = "STRING" := by
  cases h with
  | strv s hs => exact Or.inr hs
  | real80v v hr => exact absurd hr h80
  | boolv b hb => rcases hb with hb | hb <;> (rw [hb]; exact Or.inl (by decide))
  | uint8v n hb h0 h1 => rcases hb with hb | hb | hb <;> (rw [hb]; exact Or.inl (by decide))
  | int8v n hb h0 h1 => rcases hb with hb | hb <;> (rw [hb]; exact Or.inl (by decide))
  | uint16v n hb h0 h1 => rcases hb with hb | hb | hb <;> (rw [hb]; exact Or.inl (by decide))
  | int16v n hb h0 h1 => rcases hb with hb | hb <;> (rw [hb]; exact Or.inl (by decide))
  | uint32v n hb h0 h1 => rcases hb with hb | hb | hb <;> (rw [hb]; exact Or.inl (by decide))
  | int32v n hb h0 h1 => rcases hb with hb | hb <;> (rw [hb]; exact Or.inl (by decide))
  | realv bits hb h1 => rw [hb]; exact Or.inl (by decide)
  | ulintv n hb h0 h1 => rw [hb]; exact Or.inl (by decide)
  | lintv n hb h0 h1 => rw [hb]; exact Or.inl (by decide)
  | lrealv bits hb h1 => rw [hb]; exact Or.inl (by decide)
  | datev ms hb hmod h0 h1 => rcases hb with hb | hb | hb <;> (rw [hb]; exact Or.inl (by decide))
  | timev hh mm hb hh24 hm60 htz0 htz1 => rcases hb with hb | hb | hb <;> (rw [hb]; exact Or.inl (by decide))
  | voidv v hb => rcases hb with hb | hb <;> (rw [hb]; exact Or.inl (by decide))

lemma encodeFull_prim (dts : List (String × DataTypeInfo)) (tzms : Int) (fuel : Nat)
    (t : Tag) (v : JsValue)
    (h : switchType (stripType t) = true ∨ (stripType t).take 6 = "STRING") :
    encodeFull dts tzms (fuel + 1) t (.prim v) = encodePrim tzms t v := by
  unfold encodeFull
  rw [if_pos h]

lemma parseF_prim (dts : List (String × DataTypeInfo)) (tzms : Int) (fuel : Nat)
    (t : Tag) (data : List Nat)
    (h : switchType (stripType t) = true ∨ (stripType t).take 6 = "STRING") :
    parseF dts tzms (fuel + 1) t data none =
      match parsePrim tzms t data with
      | .error e => .error e
      | .ok v => .ok (.prim v, []) := by
  unfold parseF
  rw [if_pos h]

lemma parseFull_prim (dts : List (String × DataTypeInfo)) (tzms : Int) (fuel : Nat)
    (t : Tag) (data : List Nat) (v : JsValue)
    (h : switchType (stripType t) = true ∨ (stripType t).take 6 = "STRING")
    (hp : parsePrim tzms t data = .ok v) :
    parseFull dts tzms (fuel + 1) t data = .ok (.prim v) := by
  unfold parseFull
  rw [parseF_prim dts tzms fuel t data h, hp]

lemma bufCopy_eq (src dst : List Nat) (off : Nat) (h : off + src.length ≤ dst.length) :
    bufCopy src dst off = dst.take off ++ src ++ dst.drop (off + src.length) := by
  unfold bufCopy
  rw [show src.take (dst.length - off) = src from List.take_of_length_le (by omega)]

lemma bufCopy_length (src dst : List Nat) (off : Nat) (h : off + src.length ≤ dst.length) :
    (bufCopy src dst off).length = dst.length := by
  rw [bufCopy_eq src dst off h]
  simp only [List.length_append, List.length_take, List.length_drop]
  omega

lemma layoutOk_le : ∀ (items : List SubItem) (cursor size : Nat),
    layoutOk cursor size items = true → cursor ≤ size := by
  intro items
  induction items with
  | nil => intro c s h; simpa [layoutOk] using h
  | cons it rest ih =>
    intro c s h
    simp only [layoutOk, Bool.and_eq_true, decide_eq_true_eq] at h
    obtain ⟨⟨h1, h2⟩, h3⟩ := h
    have := ih _ _ h3
    omega

lemma setField_fresh (fields : List (String × PValue)) (k : String) (v : PValue)
    (h : ∀ p ∈ fields, p.1 ≠ k) :
    setField fields k v = fields ++ [(k, v)] := by
  unfold setField
  rw [if_neg]
  intro hc
  simp only [List.any_eq_true, beq_iff_eq] at hc
  obtain ⟨p, hp, he⟩ := hc
  exact h p hp he

lemma forall₂_conj {α β : Type} {P Q : α → β → Prop} :
    ∀ {l₁ : List α} {l₂ : List β}, List.Forall₂ P l₁ l₂ →
    List.Forall₂ Q l₁ l₂ → List.Forall₂ (fun a b => P a b ∧ Q a b) l₁ l₂ := by
  intro l₁ l₂ h₁ h₂
  induction h₁ with
  | nil => exact .nil
  | cons hp ht ih =>
    cases h₂ with
    | cons hq hqt => exact .cons ⟨hp, hq⟩ (ih hqt)

lemma forall₂_imp_mem {α β : Type} {P Q : α → β → Prop} (R : α → Prop) :
    ∀ {l₁ : List α} {l₂ : List β}, List.Forall₂ P l₁ l₂ → (∀ x ∈ l₁, R x) →
    (∀ x y, R x → P x y → Q x y) → List.Forall₂ Q l₁ l₂ := by
  intro l₁ l₂ h hr himp
  induction h with
  | nil => exact .nil
  | cons hp ht ih =>
    exact .cons (himp _ _ (hr _ (by simp)) hp)
      (ih (fun x hx => hr x (by simp [hx])))

lemma getProp_zip : ∀ (items : List SubItem) (vals : List JsValue),
    (items.map SubItem.name).Nodup → vals.length = items.length →
    List.Forall₂ (fun it v =>
      PValue.getProp
        (.obj (List.zipWith (fun it v => (it.name, PValue.prim v)) items vals)) it.name
        = some (.prim v)) items vals := by
  intro items
  induction items with
  | nil =>
    intro vals hnd hlen
    rw [List.length_eq_zero.mp hlen]
    exact .nil
  | cons it its ih =>
    intro vals hnd hlen
    cases vals with
    | nil => simp at hlen
    | cons v vs =>
      simp only [List.map_cons, List.nodup_cons] at hnd
      obtain ⟨hni, hnd'⟩ := hnd
      simp only [List.length_cons] at hlen
      refine .cons ?_ ?_
      · simp [PValue.getProp, List.find?]
      · have htail := ih vs hnd' (by omega)
        refine forall₂_imp_mem (fun x => x.name ≠ it.name) htail
          (fun x hx => ?_) (fun x y hne hgp => ?_)
        · show x.name ≠ it.name
          intro he
          exact hni (he ▸ List.mem_map_of_mem SubItem.name hx)
        · show PValue.getProp _ x.name = some (.prim y)
          rw [← hgp]
          simp only [PValue.getProp, List.zipWith_cons_cons, List.find?]
          rw [show (it.name == x.name) = false from beq_eq_false_iff_ne.mpr (fun he => hne he.symm)]

/-- Per-family exact encoding facts used by the structure round-trip: a
well-typed value of a fixed-width family encodes to a data block of
exactly the family's width at the tag's location, and decoding any
extension of that block recovers the value (the readers consult only the
first width bytes). -/
lemma primExact (tzms : Int) (t : Tag) (v : JsValue)
    (h : WellTypedPrim tzms t v) (hw : 0 < typeWidth (stripType t)) :
    ∃ d, encodePrim tzms t v = .ok { offset := t.offset, size := t.size, data := d } ∧
      d.length = typeWidth (stripType t) ∧
      ∀ rest, parsePrim tzms t (d ++ rest) = .ok v := by
  cases h with
  | boolv b hb =>
    have hwv : typeWidth (stripType t) = 1 := by rcases hb with hb | hb <;> (rw [hb]; decide)
    refine ⟨[if jsTruthy (.bool b) then 1 else 0], encodePrim_bool_red tzms t _ hb,
      by cases b <;> simp [hwv, jsTruthy], ?_⟩
    intro rest
    rw [parsePrim_bool_red tzms t _ hb]
    cases b <;> simp [jsTruthy, readUInt8, byteAt]
  | uint8v n hb h0 h1 =>
    have hwv : typeWidth (stripType t) = 1 := by
      rcases hb with hb | hb | hb <;> (rw [hb]; decide)
    refine ⟨bytesLE 1 n.toNat, by rw [encodePrim_uint8_red tzms t n hb, if_pos ⟨h0, h1⟩],
      by simp [bytesLE_length, hwv], ?_⟩
    intro rest
    rw [parsePrim_uint8_red tzms t _ hb]
    simp only [readUInt8_bytesLE_append n.toNat (by omega) rest]
    rw [Int.toNat_of_nonneg h0]
  | int8v n hb h0 h1 =>
    have hwv : typeWidth (stripType t) = 1 := by rcases hb with hb | hb <;> (rw [hb]; decide)
    refine ⟨bytesLE 1 (toTwosComplement 1 n),
      by rw [encodePrim_int8_red tzms t n hb, if_pos ⟨h0, h1⟩],
      by simp [bytesLE_length, hwv], ?_⟩
    intro rest
    rw [parsePrim_int8_red tzms t _ hb]
    simp only [readUInt8_bytesLE_append _ (twosRoundtrip1 n h0 h1).2 rest]
    rw [(twosRoundtrip1 n h0 h1).1]
  | uint16v n hb h0 h1 =>
    have hwv : typeWidth (stripType t) = 2 := by
      rcases hb with hb | hb | hb <;> (rw [hb]; decide)
    refine ⟨bytesLE 2 n.toNat, by rw [encodePrim_uint16_red tzms t n hb, if_pos ⟨h0, h1⟩],
      by simp [bytesLE_length, hwv], ?_⟩
    intro rest
    rw [parsePrim_uint16_red tzms t _ hb]
    simp only [readUInt16LE_bytesLE_append n.toNat (by omega) rest]
    rw [Int.toNat_of_nonneg h0]
  | int16v n hb h0 h1 =>
    have hwv : typeWidth (stripType t) = 2 := by rcases hb with hb | hb <;> (rw [hb]; decide)
    refine ⟨bytesLE 2 (toTwosComplement 2 n),
      by rw [encodePrim_int16_red tzms t n hb, if_pos ⟨h0, h1⟩],
      by simp [bytesLE_length, hwv], ?_⟩
    intro rest
    rw [parsePrim_int16_red tzms t _ hb]
    simp only [readUInt16LE_bytesLE_append _ (twosRoundtrip2 n h0 h1).2 rest]
    rw [(twosRoundtrip2 n h0 h1).1]
  | uint32v n hb h0 h1 =>
    have hwv : typeWidth (stripType t) = 4 := by
      rcases hb with hb | hb | hb <;> (rw [hb]; decide)
    refine ⟨bytesLE 4 n.toNat, by rw [encodePrim_uint32_red tzms t n hb, if_pos ⟨h0, h1⟩],
      by simp [bytesLE_length, hwv], ?_⟩
    intro rest
    rw [parsePrim_uint32_red tzms t _ hb]
    simp only [readUInt32LE_bytesLE_append n.toNat (by omega) rest]
    rw [Int.toNat_of_nonneg h0]
  | int32v n hb h0 h1 =>
    have hwv : typeWidth (stripType t) = 4 := by rcases hb with hb | hb <;> (rw [hb]; decide)
    refine ⟨bytesLE 4 (toTwosComplement 4 n),
      by rw [encodePrim_int32_red tzms t n hb, if_pos ⟨h0, h1⟩],
      by simp [bytesLE_length, hwv], ?_⟩
    intro rest
    rw [parsePrim_int32_red tzms t _ hb]
    simp only [readUInt32LE_bytesLE_append _ (twosRoundtrip4 n h0 h1).2 rest]
    rw [(twosRoundtrip4 n h0 h1).1]
  | realv bits hb h1 =>
    have hwv : typeWidth (stripType t) = 4 := by rw [hb]; decide
    refine ⟨bytesLE 4 bits, by rw [encodePrim_real_red tzms t bits hb, if_pos h1],
      by simp [bytesLE_length, hwv], ?_⟩
    intro rest
    rw [parsePrim_real_red tzms t _ hb]
    simp only [readUInt32LE_bytesLE_append bits h1 rest]
  | ulintv n hb h0 h1 =>
    have hwv : typeWidth (stripType t) = 8 := by rw [hb]; decide
    refine ⟨bytesLE 8 n.toNat, by rw [encodePrim_ulint_red tzms t n hb, if_pos ⟨h0, h1⟩],
      by simp [bytesLE_length, hwv], ?_⟩
    intro rest
    rw [parsePrim_ulint_red tzms t _ hb]
    simp only [readBigUInt64LE_bytesLE_append n.toNat (by omega) rest]
    rw [Int.toNat_of_nonneg h0]
  | lintv n hb h0 h1 =>
    have hwv : typeWidth (stripType t) = 8 := by rw [hb]; decide
    refine ⟨bytesLE 8 (toTwosComplement 8 n),
      by rw [encodePrim_lint_red tzms t n hb, if_pos ⟨h0, h1⟩],
      by simp [bytesLE_length, hwv], ?_⟩
    intro rest
    rw [parsePrim_lint_red tzms t _ hb]
    simp only [readBigUInt64LE_bytesLE_append _ (twosRoundtrip8 n h0 h1).2 rest]
    rw [(twosRoundtrip8 n h0 h1).1]
  | lrealv bits hb h1 =>
    have hwv : typeWidth (stripType t) = 8 := by rw [hb]; decide
    refine ⟨bytesLE 8 bits, by rw [encodePrim_lreal_red tzms t bits hb, if_pos h1],
      by simp [bytesLE_length, hwv], ?_⟩
    intro rest
    rw [parsePrim_lreal_red tzms t _ hb]
    simp only [readBigUInt64LE_bytesLE_append bits h1 rest]
  | datev ms hb hmod h0 h1 =>
    have hwv : typeWidth (stripType t) = 4 := by
      rcases hb with hb | hb | hb <;> (rw [hb]; decide)
    refine ⟨bytesLE 4 (ms / 1000).toNat,
      by rw [encodePrim_date_red tzms t ms hb, if_pos ⟨hmod, h0, h1⟩],
      by simp [bytesLE_length, hwv], ?_⟩
    intro rest
    rw [parsePrim_date_red tzms t _ hb]
    simp only [readUInt32LE_bytesLE_append (ms / 1000).toNat (by omega) rest]
    have e : (((ms / 1000).toNat : Int) * 1000) = ms := by
      rw [Int.toNat_of_nonneg (Int.ediv_nonneg h0 (by norm_num))]
      omega
    rw [e]
  | timev hh mm hb hh24 hm60 htz0 htz1 =>
    have hwv : typeWidth (stripType t) = 4 := by
      rcases hb with hb | hb | hb <;> (rw [hb]; decide)
    refine ⟨bytesLE 4 (((hh * 60 + mm : Nat) : Int) * 60000 - tzms).toNat, ?_,
      by simp [bytesLE_length, hwv], ?_⟩
    · rw [encodePrim_time_red tzms t (timeHHMM hh mm) hb]
      simp only [parseHHMM_timeHHMM hh hh24 mm hm60]
      rw [if_pos ⟨htz0, htz1⟩]
    · intro rest
      rw [parsePrim_time_red tzms t _ hb]
      simp only [readUInt32LE_bytesLE_append
        (((hh * 60 + mm : Nat) : Int) * 60000 - tzms).toNat (by omega) rest]
      have e1 : (((((((hh * 60 + mm : Nat) : Int) * 60000 - tzms).toNat : Int) + tzms)
          / 3600000) % 24).toNat = hh := by
        rw [Int.toNat_of_nonneg htz0]
        push_cast
        omega
      have e2 : (((((((hh * 60 + mm : Nat) : Int) * 60000 - tzms).toNat : Int) + tzms)
          / 60000 % 60).toNat) = mm := by
        rw [Int.toNat_of_nonneg htz0]
        push_cast
        omega
      rw [e1, e2]
  | voidv v hb =>
    have hwv : typeWidth (stripType t) = 0 := by rcases hb with hb | hb <;> (rw [hb]; decide)
    rw [hwv] at hw
    exact absurd hw (by decide)
  | real80v v hb =>
    have hwv : typeWidth (stripType t) = 0 := by rw [hb]; decide
    rw [hwv] at hw
    exact absurd hw (by decide)
  | strv s hb =>
    exfalso
    unfold typeWidth at hw
    split at hw
    · rename_i hc
      simp only [Bool.or_eq_true, beq_iff_eq] at hc
      casesm* _ ∨ _ <;> (rw [‹stripType t = _›] at hb; exact absurd hb (by decide))
    · split at hw
      · rename_i hc
        simp only [Bool.or_eq_true, beq_iff_eq] at hc
        casesm* _ ∨ _ <;> (rw [‹stripType t = _›] at hb; exact absurd hb (by decide))
      · split at hw
        · rename_i hc
          simp only [Bool.or_eq_true, beq_iff_eq] at hc
          casesm* _ ∨ _ <;> (rw [‹stripType t = _›] at hb; exact absurd hb (by decide))
        · split at hw
          · rename_i hc
            simp only [Bool.or_eq_true, beq_iff_eq] at hc
            casesm* _ ∨ _ <;> (rw [‹stripType t = _›] at hb; exact absurd hb (by decide))
          · exact absurd hw (by decide)

/-- The structure-encoding fold: under a sequential layout of well-typed
fixed-width members whose values the structure value supplies, the fold
succeeds, preserves the buffer's length and its prefix below the cursor,
and leaves each member's slice decodable back to its value. -/
lemma encodeItems_ok (dts : List (String × DataTypeInfo)) (tzms : Int) (g : Nat)
    (value : PValue) :
    ∀ (items : List SubItem) (vals : List JsValue) (cursor : Nat) (buf : List Nat),
    List.Forall₂ (fun it v =>
      PValue.getProp value it.name = some (.prim v) ∧
      WellTypedPrim tzms (subTag it) v ∧
      0 < typeWidth (stripType (subTag it))) items vals →
    layoutOk cursor buf.length items = true →
    ∃ buf',
      items.foldl (encodeStructStep
        (fun tg v => encodeFull dts tzms (g + 1) tg v) value) (.ok buf) = .ok buf' ∧
      buf'.length = buf.length ∧
      buf'.take cursor = buf.take cursor ∧
      List.Forall₂ (fun it v =>
        parsePrim tzms (subTag it) ((buf'.drop it.offset).take it.size) = .ok v ∧
        switchType (stripType (subTag it)) = true) items vals := by
  intro items
  induction items with
  | nil =>
    intro vals cursor buf hvals hlay
    cases hvals
    exact ⟨buf, rfl, rfl, rfl, .nil⟩
  | cons it its ih =>
    intro vals cursor buf hvals hlay
    cases hvals with
    | cons hpv htail =>
      rename_i v vs
      obtain ⟨hgp, hwtp, hpos⟩ := hpv
      simp only [layoutOk, Bool.and_eq_true, decide_eq_true_eq] at hlay
      obtain ⟨⟨hc1, hc2⟩, hc3⟩ := hlay
      have hsw : switchType (stripType (subTag it)) = true := switchType_of_width _ hpos
      obtain ⟨d, henc, hdlen, hparse⟩ := primExact tzms (subTag it) v hwtp hpos
      have hbound : it.offset + typeWidth (stripType (subTag it)) ≤ buf.length :=
        layoutOk_le its _ _ hc3
      have hfit : it.offset + d.length ≤ buf.length := by rw [hdlen]; exact hbound
      have hstep : encodeStructStep (fun tg v => encodeFull dts tzms (g + 1) tg v) value
          (.ok buf) it = .ok (bufCopy d buf it.offset) := by
        simp only [encodeStructStep, hgp,
          encodeFull_prim dts tzms g (subTag it) v (Or.inl hsw), henc]
      have hlen₁ : (bufCopy d buf it.offset).length = buf.length :=
        bufCopy_length d buf it.offset hfit
      have heq₁ : bufCopy d buf it.offset =
          buf.take it.offset ++ d ++ buf.drop (it.offset + d.length) :=
        bufCopy_eq d buf it.offset hfit
      have hlay' : layoutOk (it.offset + typeWidth (stripType (subTag it)))
          (bufCopy d buf it.offset).length its = true := by
        rw [hlen₁]; exact hc3
      obtain ⟨buf', hfold, hlen', htake', hrec⟩ :=
        ih vs (it.offset + typeWidth (stripType (subTag it))) (bufCopy d buf it.offset)
          htail hlay'
      have hsplit : buf'.take (it.offset + typeWidth (stripType (subTag it))) =
          buf.take it.offset ++ d := by
        rw [htake', heq₁]
        exact List.take_left' (by simp only [List.length_append, List.length_take]; omega)
      refine ⟨buf', ?_, ?_, ?_, ?_⟩
      · rw [List.foldl_cons, hstep]; exact hfold
      · rw [hlen', hlen₁]
      · have h1 : buf'.take cursor =
            (buf'.take (it.offset + typeWidth (stripType (subTag it)))).take cursor := by
          rw [List.take_take, Nat.min_eq_left (by omega)]
        rw [h1, hsplit, List.take_append_eq_append_take]
        have hlt : (buf.take it.offset).length = it.offset := by
          simp only [List.length_take]; omega
        rw [hlt, List.take_take, Nat.min_eq_left hc1]
        have hz : cursor - it.offset = 0 := by omega
        rw [hz]
        simp
      · refine .cons ⟨?_, hsw⟩ hrec
        have hdrop : buf'.drop it.offset =
            d ++ buf'.drop (it.offset + typeWidth (stripType (subTag it))) := by
          conv_lhs => rw [← List.take_append_drop
            (it.offset + typeWidth (stripType (subTag it))) buf']
          rw [hsplit, List.append_assoc]
          rw [List.drop_append_eq_append_drop]
          have hlt : (buf.take it.offset).length = it.offset := by
            simp only [List.length_take]; omega
          rw [List.drop_of_length_le (by omega), hlt]
          have hz : it.offset - it.offset = 0 := by omega
          rw [hz]
          simp
        have htk : (buf'.drop it.offset).take it.size =
            d ++ (buf'.drop (it.offset + typeWidth (stripType (subTag it)))).take
              (it.size - d.length) := by
          rw [hdrop, List.take_append_eq_append_take,
            List.take_of_length_le (show d.length ≤ it.size by omega)]
        rw [htk]
        exact hparse _

/-- The structure-parsing fold: when each member's slice of the buffer
decodes to its value and the member names are distinct and fresh for the
accumulator, the fold appends the decoded members in declaration order. -/
lemma parseItems_ok (dts : List (String × DataTypeInfo)) (tzms : Int) (g : Nat)
    (data : List Nat) :
    ∀ (items : List SubItem) (vals : List JsValue) (acc : List (String × PValue)),
    List.Forall₂ (fun it v =>
      parsePrim tzms (subTag it) ((data.drop it.offset).take it.size) = .ok v ∧
      switchType (stripType (subTag it)) = true) items vals →
    (∀ it ∈ items, ∀ p ∈ acc, p.1 ≠ it.name) →
    (items.map SubItem.name).Nodup →
    items.foldl (parseStructStep
      (fun tg d => parseF dts tzms (g + 1) tg d none) data) (.ok acc) =
      .ok (acc ++ List.zipWith (fun it v => (it.name, PValue.prim v)) items vals) := by
  intro items
  induction items with
  | nil =>
    intro vals acc hvals hfresh hnd
    cases hvals
    simp
  | cons it its ih =>
    intro vals acc hvals hfresh hnd
    cases hvals with
    | cons hpv htail =>
      rename_i v vs
      obtain ⟨hp, hsw⟩ := hpv
      simp only [List.map_cons, List.nodup_cons] at hnd
      obtain ⟨hni, hnd'⟩ := hnd
      have hstep : parseStructStep (fun tg d => parseF dts tzms (g + 1) tg d none) data
          (.ok acc) it = .ok (acc ++ [(it.name, PValue.prim v)]) := by
        simp only [parseStructStep,
          parseF_prim dts tzms g (subTag it) _ (Or.inl hsw), hp]
        rw [setField_fresh acc it.name _ (fun p hp' => hfresh it (by simp) p hp')]
      have hfresh' : ∀ it' ∈ its, ∀ p ∈ acc ++ [(it.name, PValue.prim v)], p.1 ≠ it'.name := by
        intro it' hit' p hp'
        rcases List.mem_append.mp hp' with hmem | hmem
        · exact hfresh it' (by simp [hit']) p hmem
        · simp only [List.mem_singleton] at hmem
          subst hmem
          show it.name ≠ it'.name
          exact fun he => hni (he ▸ List.mem_map_of_mem SubItem.name hit')
      rw [List.foldl_cons, hstep, ih vs (acc ++ [(it.name, PValue.prim v)]) htail hfresh' hnd']
      simp

lemma resolvesArray_of (dts : List (String × DataTypeInfo)) (t : Tag) (dt : DataTypeInfo)
    (hdt : dtLookup dts t.type = some dt) (harr : dt.arrayDimentions ≠ []) :
    resolvesArray dts t = true := by
  unfold resolvesArray
  simp only [hdt]
  simp [harr]

lemma resolvesArray_not (dts : List (String × DataTypeInfo)) (t : Tag) (dt : DataTypeInfo)
    (hdt : dtLookup dts t.type = some dt) (harr : dt.arrayDimentions = []) :
    resolvesArray dts t = false := by
  unfold resolvesArray
  simp only [hdt]
  simp [harr]

set_option maxHeartbeats 800000 in
/-- The unencodable-family branch of the primitive lift: PVOID, OTCID and
REAL80 tags fail to encode through the full dispatch as they do through
the primitive layer. -/
lemma roundtripFull_prim_err (dts : List (String × DataTypeInfo)) (tzms : Int)
    (g : Nat) (t : Tag) (v : JsValue)
    (hg : switchType (stripType t) = true ∨ (stripType t).take 6 = "STRING")
    (hrt : RoundtripSpec tzms t v)
    (hb1 : stripType t = "PVOID" ∨ stripType t = "OTCID" ∨ stripType t = "REAL80") :
    RoundtripFull dts tzms (g + 1) t (.prim v) := by
  unfold RoundtripFull
  unfold RoundtripSpec at hrt
  rw [if_pos hb1] at hrt ⊢
  obtain ⟨e, he⟩ := hrt
  exact ⟨e, by rw [encodeFull_prim dts tzms g t v hg]; exact he⟩

set_option maxHeartbeats 800000 in
/-- The STRING branch of the primitive lift: the altered STRING
round-trip transfers from the primitive layer to the full dispatch. -/
lemma roundtripFull_prim_str (dts : List (String × DataTypeInfo)) (tzms : Int)
    (g : Nat) (t : Tag) (v : JsValue)
    (hg : switchType (stripType t) = true ∨ (stripType t).take 6 = "STRING")
    (hrt : RoundtripSpec tzms t v)
    (hb1 : ¬(stripType t = "PVOID" ∨ stripType t = "OTCID" ∨ stripType t = "REAL80"))
    (hb2 : (stripType t).take 6 = "STRING") :
    RoundtripFull dts tzms (g + 1) t (.prim v) := by
  unfold RoundtripFull
  unfold RoundtripSpec at hrt
  rw [if_neg hb1] at hrt ⊢
  rw [if_pos hb2] at hrt ⊢
  obtain ⟨s, hv, he, hp⟩ := hrt
  subst hv
  exact ⟨s, rfl, by rw [encodeFull_prim dts tzms g t _ hg]; exact he,
    parseFull_prim dts tzms g t _ _ hg hp⟩

set_option maxHeartbeats 800000 in
/-- The exactly round-tripping branch of the primitive lift. -/
lemma roundtripFull_prim_exact (dts : List (String × DataTypeInfo)) (tzms : Int)
    (g : Nat) (t : Tag) (v : JsValue)
    (hg : switchType (stripType t) = true ∨ (stripType t).take 6 = "STRING")
    (hrt : RoundtripSpec tzms t v)
    (hb1 : ¬(stripType t = "PVOID" ∨ stripType t = "OTCID" ∨ stripType t = "REAL80"))
    (hb2 : ¬((stripType t).take 6 = "STRING")) :
    RoundtripFull dts tzms (g + 1) t (.prim v) := by
  unfold RoundtripFull
  unfold RoundtripSpec at hrt
  rw [if_neg hb1] at hrt ⊢
  rw [if_neg hb2] at hrt ⊢
  have hsw : switchType (stripType t) = true := by
    rcases hg with hg | hg
    · exact hg
    · exact absurd hg hb2
  rw [if_neg (by rintro ⟨hc, -⟩; rw [hsw] at hc; exact Bool.noConfusion hc)]
  obtain ⟨w, he, hp⟩ := hrt
  exact ⟨w, by rw [encodeFull_prim dts tzms g t v hg]; exact he,
    parseFull_prim dts tzms g t w.data v hg hp⟩

/-- Lifting the primitive round-trip result through the full dispatch:
for a tag the switch or STRING check handles, Client.encode and
Client.parse defer to the primitive layer. -/
lemma roundtripFull_of_prim (dts : List (String × DataTypeInfo)) (tzms : Int)
    (g : Nat) (t : Tag) (v : JsValue)
    (hg : switchType (stripType t) = true ∨ (stripType t).take 6 = "STRING")
    (hrt : RoundtripSpec tzms t v) :
    RoundtripFull dts tzms (g + 1) t (.prim v) := by
  by_cases hb1 : stripType t = "PVOID" ∨ stripType t = "OTCID" ∨ stripType t = "REAL80"
  · exact roundtripFull_prim_err dts tzms g t v hg hrt hb1
  · by_cases hb2 : (stripType t).take 6 = "STRING"
    · exact roundtripFull_prim_str dts tzms g t v hg hrt hb1 hb2
    · exact roundtripFull_prim_exact dts tzms g t v hg hrt hb1 hb2

set_option maxHeartbeats 1600000 in
/-- Claim C1 (amended): over the full type dispatch of Client.encode and
Client.parse, decoding the encoding of a well-typed value at a resolved
tag returns the value - structures of fixed-width primitives included -
except that PVOID/OTCID and REAL80 tags fail to encode, STRING values
come back truncated at the first NUL of the size-limited unpadded buffer
(empty when the value holds no NUL), and a tag resolving to an array
datatype fails to encode with 'writing arrays are not supported yet'.
(The original claim admitted no array exception and allowed only STRING
values with data after a NUL as failing.) -/
theorem c1_roundtrip_resolved_amended (dts : List (String × DataTypeInfo)) (tzms : Int)
    (t : Tag) (v : PValue) (h : WellTypedFull dts tzms t v)
    (fuel : Nat) (hf : 2 ≤ fuel) :
    RoundtripFull dts tzms fuel t v := by
  obtain ⟨k, rfl⟩ : ∃ k, fuel = k + 1 + 1 := ⟨fuel - 2, by omega⟩
  cases h with
  | primv v hwtp h80 =>
    exact roundtripFull_of_prim dts tzms (k + 1) t v
      (wellTypedPrim_gate tzms t v hwtp h80) (roundtripPrim tzms t v hwtp)
  | real80v hv h80 hdt =>
    unfold RoundtripFull
    rw [if_pos (Or.inr (Or.inr h80))]
    have hgate : ¬(switchType (stripType t) = true ∨ (stripType t).take 6 = "STRING") := by
      rw [h80]; decide
    rcases hl : dtLookup dts t.type with _ | dt
    · refine ⟨"encode: datatype was not found or recogniced", ?_⟩
      unfold encodeFull
      rw [if_neg hgate]
      simp [hl]
    · have hsub : dt.subItems = [] := hdt dt hl
      by_cases ha : dt.arrayDimentions.length > 0
      · refine ⟨"encode: writing arrays are not supported yet", ?_⟩
        unfold encodeFull
        rw [if_neg hgate]
        simp only [hl]
        rw [if_pos ha]
      · refine ⟨"encode: datatype was not recogniced", ?_⟩
        unfold encodeFull
        rw [if_neg hgate]
        simp only [hl]
        rw [if_neg ha, if_neg (by rw [hsub]; decide)]
  | arrayv hv dt hsw hstr hdt harr =>
    have hgate : ¬(switchType (stripType t) = true ∨ (stripType t).take 6 = "STRING") := by
      rintro (hc | hc)
      · rw [hsw] at hc; exact Bool.noConfusion hc
      · exact hstr hc
    have henc : encodeFull dts tzms (k + 1 + 1) t v =
        .error "encode: writing arrays are not supported yet" := by
      unfold encodeFull
      rw [if_neg hgate]
      simp only [hdt]
      rw [if_pos (List.length_pos.mpr harr)]
    unfold RoundtripFull
    by_cases hb1 : stripType t = "PVOID" ∨ stripType t = "OTCID" ∨ stripType t = "REAL80"
    · rw [if_pos hb1]
      exact ⟨_, henc⟩
    · rw [if_neg hb1, if_neg hstr, if_pos ⟨hsw, resolvesArray_of dts t dt hdt harr⟩]
      exact henc
  | structv dt vals hsw hstr h80 hdt harr hsub hvals hlay hnames =>
    have hgate : ¬(switchType (stripType t) = true ∨ (stripType t).take 6 = "STRING") := by
      rintro (hc | hc)
      · rw [hsw] at hc; exact Bool.noConfusion hc
      · exact hstr hc
    have hlen : vals.length = dt.subItems.length := (List.Forall₂.length_eq hvals).symm
    have hcomb := forall₂_conj (getProp_zip dt.subItems vals hnames hlen) hvals
    have hlayrep : layoutOk 0 (List.replicate dt.size 0).length dt.subItems = true := by
      rw [List.length_replicate]; exact hlay
    obtain ⟨buf', hfold, hblen, htriv, hrec⟩ :=
      encodeItems_ok dts tzms k
        (.obj (List.zipWith (fun it v => (it.name, PValue.prim v)) dt.subItems vals))
        dt.subItems vals 0 (List.replicate dt.size 0) hcomb hlayrep
    have henc : encodeFull dts tzms (k + 1 + 1) t
        (.obj (List.zipWith (fun it v => (it.name, PValue.prim v)) dt.subItems vals)) =
        .ok { offset := t.offset, size := t.size, data := buf' } := by
      unfold encodeFull
      rw [if_neg hgate]
      simp only [hdt]
      rw [if_neg (by rw [harr]; decide), if_pos (List.length_pos.mpr hsub)]
      simp only [hfold]
    have hparse : parseFull dts tzms (k + 1 + 1) t buf' =
        .ok (.obj (List.zipWith (fun it v => (it.name, PValue.prim v)) dt.subItems vals)) := by
      have hfold2 := parseItems_ok dts tzms k buf' dt.subItems vals [] hrec
        (by intro it hit p hp; exact absurd hp (List.not_mem_nil p)) hnames
      unfold parseFull
      unfold parseF
      rw [if_neg hgate]
      simp only [hdt]
      rw [if_neg (by rw [harr]; decide), if_pos (List.length_pos.mpr hsub)]
      simp only [hfold2]
      simp
    unfold RoundtripFull
    rw [if_neg (by
        rintro (hc | hc | hc)
        · rw [hc] at hsw; exact absurd hsw (by decide)
        · rw [hc] at hsw; exact absurd hsw (by decide)
        · exact h80 hc),
      if_neg hstr,
      if_neg (by
        rintro ⟨-, hra⟩
        rw [resolvesArray_not dts t dt hdt harr] at hra
        exact Bool.noConfusion hra)]
    exact ⟨{ offset := t.offset, size := t.size, data := buf' }, henc, hparse⟩

/-- Witness for claim C1: a two-member structure (BOOL at offset 0, INT
at offset 2, four bytes) with both members given is well typed over its
datatype table and round-trips through the full dispatch. -/
theorem c1_roundtrip_resolved_amended_witness :
    WellTypedFull stAlarmsRegistry 0 stAlarmsTag stAlarmsValue ∧
    RoundtripFull stAlarmsRegistry 0 2 stAlarmsTag stAlarmsValue :=
  have hw : WellTypedFull stAlarmsRegistry 0 stAlarmsTag stAlarmsValue :=
    WellTypedFull.structv stAlarmsTag stAlarmsType [JsValue.bool true, JsValue.num 5]
      (by decide) (by decide) (by decide) (by decide) (by decide) (by decide)
      (List.Forall₂.cons
        ⟨WellTypedPrim.boolv _ true (Or.inl (by decide)), by decide⟩
        (List.Forall₂.cons
          ⟨WellTypedPrim.int16v _ 5 (Or.inl (by decide)) (by decide) (by decide),
            by decide⟩
          List.Forall₂.nil))
      (by decide) (by decide)
  ⟨hw, c1_roundtrip_resolved_amended stAlarmsRegistry 0 stAlarmsTag stAlarmsValue hw
    2 (by decide)⟩

/-- Counterexample to claim C1 as stated: first, the STRING value "A"
contains no NUL at all, yet decoding its encoding at a STRING(2) tag
(byte size 3) yields the empty string, because encode does not zero-pad
to tag.size and decode finds no NUL to truncate at; second, at a tag
whose datatype resolves to ARRAY [1..2] OF BOOL, Client.encode of any
value throws 'encode: writing arrays are not supported yet', so no
array-typed tag round-trips. -/
theorem c1_string_and_array_counterexample :
    encodeFull [] 0 1 strTag (.prim (.str "A")) =
      .ok { offset := 0, size := 3, data := [65] } ∧
    parseFull [] 0 1 strTag [65] = .ok (.prim (.str "")) ∧
    "" ≠ "A" ∧
    ("A".toList.all (fun c => c.toNat ≠ 0)) = true ∧
    encodeFull arrRegistry 0 2 arrTag (.prim (.bool true)) =
      .error "encode: writing arrays are not supported yet" :=
  ⟨rfl, rfl, by decide, by decide, rfl⟩

example : encodeFull stAlarmsRegistry 0 2 stAlarmsTag stAlarmsValue =
    .ok { offset := 16, size := 4, data := [1, 0, 5, 0] } := rfl

example : parseFull stAlarmsRegistry 0 2 stAlarmsTag [1, 0, 5, 0] =
    .ok stAlarmsValue := rfl

example : parseFull arrRegistry 0 3 arrTag [1, 0] =
    .ok (.obj [("1", .prim (.bool true)), ("2", .prim (.bool false))]) := rfl

end Beckhoff.Codec

namespace Beckhoff.Claims

open Beckhoff.Ams Beckhoff.Codec Beckhoff.Client Beckhoff.Connection

set_option maxRecDepth 10000

/-- A u32 read past an entire left part of an append lands in the right
part. -/
lemma readUInt32LE_append_skip (a b : List Nat) (off : Nat) :
    readUInt32LE (a ++ b) (a.length + off) = readUInt32LE b off := by
  unfold readUInt32LE
  have hd : (a ++ b).drop (a.length + off) = b.drop off := List.drop_append off
  rw [hd]
  have hiff : a.length + off + 4 ≤ (a ++ b).length ↔ off + 4 ≤ b.length := by
    simp only [List.length_append]
    omega
  by_cases hc : off + 4 ≤ b.length
  · rw [if_pos (hiff.mpr hc), if_pos hc]
  · rw [if_neg (fun hx => hc (hiff.mp hx)), if_neg hc]

/-- Reading a u32 field that sits right after a prefix of known length. -/
lemma read_u32_at (p : List Nat) (n : Nat) (rest : List Nat) (off : Nat)
    (hoff : p.length = off) (hn : n < 4294967296) :
    readUInt32LE (p ++ (bytesLE 4 n ++ rest)) off = some n := by
  subst hoff
  have h0 := readUInt32LE_append_skip p (bytesLE 4 n ++ rest) 0
  rw [Nat.add_zero] at h0
  rw [h0, readUInt32LE_append_left _ _ 0 (by rw [bytesLE_length]),
    readUInt32LE_bytesLE n hn]

/-- Assigning a fresh key to a JS object grows it by one property. -/
lemma jsObjectSet_length_of_fresh {α : Type} (l : List (String × α)) (k : String)
    (v : α) (h : ∀ e ∈ l, e.1 ≠ k) : (jsObjectSet l k v).length = l.length + 1 := by
  induction l with
  | nil => rfl
  | cons e rest ih =>
    have hek : e.1 ≠ k := h e (by simp)
    unfold jsObjectSet
    rw [if_neg hek]
    simp only [List.length_cons]
    rw [ih (fun x hx => h x (by simp [hx]))]

/-- No exception escapes the callback forEach exactly when every callback
succeeds. -/
lemma forEach_none_iff {α ε : Type} (cbs : List (α → Except ε Unit)) (v : α) :
    (forEachCallbacks cbs v).2 = none ↔ ∀ cb ∈ cbs, cb v = .ok () := by
  induction cbs with
  | nil => simp [forEachCallbacks]
  | cons c rest ih =>
    unfold forEachCallbacks
    cases hc : c v with
    | error e =>
      simp only
      constructor
      · intro hcontra
        simp at hcontra
      · intro hall
        have hx := hall c (by simp)
        rw [hc] at hx
        simp at hx
    | ok u =>
      cases u
      simp only
      rw [ih]
      constructor
      · intro hall cb hcb
        rcases List.mem_cons.mp hcb with hcb | hcb
        · rw [hcb]; exact hc
        · exact hall cb hcb
      · intro hall cb hcb
        exact hall cb (by simp [hcb])

/-- When every callback succeeds, the forEach invokes them all. -/
lemma forEach_count_all_ok {α ε : Type} (cbs : List (α → Except ε Unit)) (v : α)
    (h : ∀ cb ∈ cbs, cb v = .ok ()) : (forEachCallbacks cbs v).1 = cbs.length := by
  induction cbs with
  | nil => rfl
  | cons c rest ih =>
    have hc : c v = .ok () := h c (by simp)
    unfold forEachCallbacks
    rw [hc]
    simp only [List.length_cons]
    rw [ih (fun cb hcb => h cb (by simp [hcb]))]

/-- The findTag search predicate holds exactly when the symbol's
upper-cased name is a leading segment of the upper-cased query. -/
lemma findTag_pred_iff (s : SymbolData) (q : String) :
    (s.systemName == String.mk ((jsToUpper q).toList.take s.systemName.length)) = true ↔
    (jsToUpper q).toList.take s.systemName.length = s.systemName.toList := by
  rw [beq_iff_eq]
  constructor
  · intro he
    have hd := congrArg String.data he
    exact hd.symm
  · intro he
    exact String.ext he.symm

/-- Claim C2 (amended): splitting a stream of well-formed frames at any
point and feeding the two chunks through the data handler yields exactly
the packet sequence of the whole stream, with an empty residual buffer.
The byte-at-a-time scenario holds at 42 bytes, not 40: every known
response shape reads a 4-byte field at offset 32 of the AMS packet, so
the smallest decodable frame is 6 + 36 = 42 bytes; feeding the 42-byte
WriteResponse frame one byte at a time emits nothing before the 42nd byte
and exactly one packet at the 42nd. -/
theorem c2_frame_split_amended (fs : List (List Nat)) (k : Nat)
    (hwf : ∀ f ∈ fs, WellFormedFrame f) (hk : k ≤ fs.flatten.length) :
    ((dataHandler none (fs.flatten.take k)).2 ++
        (dataHandler (dataHandler none (fs.flatten.take k)).1 (fs.flatten.drop k)).2 =
        fs.filterMap getPacket ∧
      (dataHandler (dataHandler none (fs.flatten.take k)).1 (fs.flatten.drop k)).1 = some []) ∧
    ((List.range 42).all (fun j => ((feedBytes (frame42.take j)).2).isEmpty) = true ∧
      ((feedBytes frame42).2).length = 1 ∧ (feedBytes frame42).1 = some []) := by
  refine ⟨dataHandler_split fs k hwf hk, by decide, by decide, by decide⟩

/-- Witness for claim C2: one well-formed 42-byte frame split after 10
bytes still comes out as a single packet with empty residual buffer. -/
theorem c2_frame_split_amended_witness :
    (dataHandler (dataHandler none (frame42.take 10)).1 (frame42.drop 10)).1 = some [] := by
  have h := c2_frame_split_amended [frame42] 10 (by decide) (by decide)
  have h2 := h.1.2
  simpa using h2

/-- Counterexample to claim C2 as stated: a 40-byte frame with a valid
prelude (declared TCP length 34) and the known WriteResponse command id 3
never yields a packet, not even at its 40th byte, because decode throws
reading the 4-byte result at offset 32 of the 34-byte AMS packet. -/
theorem c2_forty_byte_frame_counterexample :
    frame40.length = 40 ∧ readUInt32LE frame40 2 = some 34 ∧
    readUInt16LE (frame40.drop 6) 16 = some 3 ∧
    ((List.range 41).all (fun j => ((feedBytes (frame40.take j)).2).isEmpty)) = true := by
  refine ⟨by decide, by decide, by decide, by decide⟩

/-- Claim C3 (code bug): the tag resolver of src/main.ts never parses
bracket indices - findTag only prefix-matches the upper-cased query
against symbol names - so read(".arrAlarm[2]") issues a Read for the
whole array at (0x4040, 0x20, 2), not the element Read (0x4040, 0x21, 1)
that the specification (and the repository's own README, which documents
element reads through bracket indices) requires. -/
theorem c3_bracket_index_ignored_at_failing_input :
    readTagRequest [arrAlarmSym] ".arrAlarm[2]" = some (0x4040, 0x20, 2) ∧
    some ((0x4040 : Nat), (0x20 : Nat), (2 : Nat)) ≠
      some ((0x4040 : Nat), (0x21 : Nat), (1 : Nat)) := by
  refine ⟨by decide, by decide⟩

/-- Claim C4 (amended): Client.monitorTag enforces no bound at all on the
number of concurrent notification handles - a call for a fresh tag name
always subscribes and grows the registry by one, and no call ever fails
with TooManyHandles. -/
theorem c4_no_handle_bound_amended {κ : Type} (st : List (String × NotificationHandle κ))
    (tagName : String) (sh : Nat) (cb : κ) :
    (monitorTagStep st tagName sh cb).1 ≠ .tooManyHandles ∧
    ((∀ e ∈ st, e.1 ≠ tagName) →
      (monitorTagStep st tagName sh cb).1 = .subscribed sh ∧
      (monitorTagStep st tagName sh cb).2.length = st.length + 1) := by
  constructor
  · unfold monitorTagStep
    cases hf : st.find? (fun e => e.1 == tagName) <;> simp
  · intro hfresh
    have hnone : st.find? (fun e => e.1 == tagName) = none := by
      rw [List.find?_eq_none]
      intro x hx
      simp [hfresh x hx]
    unfold monitorTagStep
    rw [hnone]
    refine ⟨rfl, ?_⟩
    simp only
    exact jsObjectSet_length_of_fresh st tagName _ hfresh

/-- Witness for claim C4: on an empty registry a monitor call subscribes
and stores one handle. -/
theorem c4_no_handle_bound_amended_witness :
    (monitorTagStep ([] : List (String × NotificationHandle Nat)) "x" 7 0).1 =
      .subscribed 7 ∧
    (monitorTagStep ([] : List (String × NotificationHandle Nat)) "x" 7 0).2.length = 1 := by
  have h := (c4_no_handle_bound_amended ([] : List (String × NotificationHandle Nat))
    "x" 7 0).2 (by simp)
  exact ⟨h.1, h.2⟩

/-- Counterexample to claim C4 as stated: with 550 handles already
registered, the 551st monitor call does not fail with TooManyHandles - it
subscribes and the registry grows to 551 entries. -/
theorem c4_551st_handle_counterexample :
    (exampleRegistry 550).length = 550 ∧
    (monitorTagStep (exampleRegistry 550) "NEW" 99 (0 : Nat)).1 = .subscribed 99 ∧
    (monitorTagStep (exampleRegistry 550) "NEW" 99 (0 : Nat)).1 ≠ .tooManyHandles ∧
    (monitorTagStep (exampleRegistry 550) "NEW" 99 (0 : Nat)).2.length = 551 := by
  refine ⟨by decide, by decide, by decide, by decide⟩

/-- Claim C5 (amended): requests issued through ADSConnection.request
fail 3000 ms after issue - the timeout fires cleanup, which removes every
listener registered for the request's key, and rejects with 'Request
timeout' - while requests issued through the legacy Client.request use a
30000 ms deadline, whose handler also removes the waiter before rejecting
with 'request: timeout'. -/
theorem c5_request_timeout_amended :
    requestTimeoutDelay .adsConnectionRequest = 3000 ∧
    requestTimeoutDelay .clientRequest = 30000 ∧
    (∀ (ls : List String) (id : String) (present : Bool),
      id ∉ (adsTimeoutFire ls id present).1 ∧
      (present = true → (adsTimeoutFire ls id present).2 = "Request timeout")) ∧
    (∀ (rs : List Nat) (id : Nat), id ∈ rs →
      id ∉ (clientTimeoutFire rs id).1 ∧
      (clientTimeoutFire rs id).2 = some "request: timeout") := by
  refine ⟨rfl, rfl, ?_, ?_⟩
  · intro ls id present
    constructor
    · unfold adsTimeoutFire
      simp [List.mem_filter]
    · intro hp
      unfold adsTimeoutFire
      rw [hp]
      rfl
  · intro rs id hid
    unfold clientTimeoutFire
    rw [if_pos hid]
    constructor
    · simp [List.mem_filter]
    · rfl

/-- Witness for claim C5: a registered waiter for invoke id 5 is removed
and rejected by the legacy timeout handler. -/
theorem c5_request_timeout_amended_witness :
    (5 : Nat) ∉ (clientTimeoutFire [5] 5).1 ∧
    (clientTimeoutFire [5] 5).2 = some "request: timeout" :=
  c5_request_timeout_amended.2.2.2 [5] 5 (by decide)

/-- Counterexample to claim C5 as stated: requests issued through the
legacy Client.request path time out after 30000 ms, not 3 seconds. -/
theorem c5_client_thirty_second_counterexample :
    requestTimeoutDelay .clientRequest = 30000 ∧ (30000 : Nat) ≠ 3000 := by
  refine ⟨rfl, by decide⟩

/-- Claim C6 (amended): the ADSConnection invoke-id counter allocates the
current counter value, increments by one within a cycle, never allocates
0, resets to 1 when the counter would reach 2^32 - 1 (so every allocated
id fits a u32 and 2^32 - 1 itself is never allocated); the legacy
Client.request counter increments without any wrap-around. -/
theorem c6_invoke_counter_amended :
    (∀ s, 1 ≤ s → (adsNextInvoke s).1 ≠ 0) ∧
    (∀ s, 1 ≤ s → s < MAX_SAFE_INVOKEID → adsNextInvoke s = (s, s + 1)) ∧
    adsNextInvoke MAX_SAFE_INVOKEID = (1, 2) ∧
    (∀ s, (adsNextInvoke s).1 < MAX_SAFE_INVOKEID) ∧
    (∀ s, clientNextInvoke s = (s, s + 1)) := by
  have hmax : MAX_SAFE_INVOKEID = 4294967295 := by decide
  refine ⟨?_, ?_, ?_, ?_, fun s => rfl⟩
  · intro s hs
    simp only [adsNextInvoke]
    split <;> omega
  · intro s hs hlt
    rw [hmax] at hlt
    simp only [adsNextInvoke, hmax]
    rw [if_neg (by omega)]
  · decide
  · intro s
    simp only [adsNextInvoke, hmax]
    split <;> omega

/-- Witness for claim C6: state 5 allocates 5 and advances to 6, a
nonzero id. -/
theorem c6_invoke_counter_amended_witness :
    adsNextInvoke 5 = (5, 6) ∧ (adsNextInvoke 5).1 ≠ 0 :=
  ⟨c6_invoke_counter_amended.2.1 5 (by decide) (by decide),
   c6_invoke_counter_amended.1 5 (by decide)⟩

/-- Counterexample to claim C6 as stated: the legacy Client counter does
not wrap - after allocating 2^32 - 1 the next allocation is 2^32, which
is neither 1 nor a representable u32 (the header write would throw). -/
theorem c6_client_counter_no_wrap_counterexample :
    (clientNextInvoke (2 ^ 32 - 1)).1 = 2 ^ 32 - 1 ∧
    (clientNextInvoke (clientNextInvoke (2 ^ 32 - 1)).2).1 = 2 ^ 32 ∧
    (2 : Nat) ^ 32 ≠ 1 ∧ ¬ ((2 : Nat) ^ 32 < 2 ^ 32) := by
  refine ⟨rfl, rfl, by decide, by decide⟩

/-- Claim C7 (amended): every AddDeviceNotification payload built by
Client.subscribe is 40 bytes carrying the requested group, offset and
size, transmission mode 4 (ServerOnChange), max delay 10 ms and cycle
time 10 ms - not the 200 ms / 50 ms the claim states - and the function
accepts no caller-supplied overrides. -/
theorem c7_subscribe_defaults_amended (g o s : Nat)
    (hg : g < 4294967296) (ho : o < 4294967296) (hs : s < 4294967296) :
    (subscribeData g o s).length = 40 ∧
    readUInt32LE (subscribeData g o s) 0 = some g ∧
    readUInt32LE (subscribeData g o s) 4 = some o ∧
    readUInt32LE (subscribeData g o s) 8 = some s ∧
    readUInt32LE (subscribeData g o s) 12 = some subscribeTransmissionMode ∧
    readUInt32LE (subscribeData g o s) 16 = some subscribeMaxDelay ∧
    readUInt32LE (subscribeData g o s) 20 = some subscribeCycleTime := by
  refine ⟨?_, ?_, ?_, ?_, ?_, ?_, ?_⟩
  · simp [subscribeData, List.length_append, bytesLE_length, List.length_replicate]
  · have he : subscribeData g o s = ([] : List Nat) ++ (bytesLE 4 g ++
        (bytesLE 4 o ++ bytesLE 4 s ++ bytesLE 4 subscribeTransmissionMode ++
         bytesLE 4 subscribeMaxDelay ++ bytesLE 4 subscribeCycleTime ++
         List.replicate 16 0)) := by
      simp [subscribeData, List.append_assoc]
    rw [he]
    exact read_u32_at _ g _ 0 (by simp) hg
  · have he : subscribeData g o s = bytesLE 4 g ++ (bytesLE 4 o ++
        (bytesLE 4 s ++ bytesLE 4 subscribeTransmissionMode ++
         bytesLE 4 subscribeMaxDelay ++ bytesLE 4 subscribeCycleTime ++
         List.replicate 16 0)) := by
      simp [subscribeData, List.append_assoc]
    rw [he]
    exact read_u32_at _ o _ 4 (by simp [bytesLE_length]) ho
  · have he : subscribeData g o s = (bytesLE 4 g ++ bytesLE 4 o) ++ (bytesLE 4 s ++
        (bytesLE 4 subscribeTransmissionMode ++
         bytesLE 4 subscribeMaxDelay ++ bytesLE 4 subscribeCycleTime ++
         List.replicate 16 0)) := by
      simp [subscribeData, List.append_assoc]
    rw [he]
    exact read_u32_at _ s _ 8 (by simp [bytesLE_length]) hs
  · have he : subscribeData g o s = (bytesLE 4 g ++ bytesLE 4 o ++ bytesLE 4 s) ++
        (bytesLE 4 subscribeTransmissionMode ++
         (bytesLE 4 subscribeMaxDelay ++ bytesLE 4 subscribeCycleTime ++
          List.replicate 16 0)) := by
      simp [subscribeData, List.append_assoc]
    rw [he]
    exact read_u32_at _ subscribeTransmissionMode _ 12 (by simp [bytesLE_length]) (by decide)
  · have he : subscribeData g o s = (bytesLE 4 g ++ bytesLE 4 o ++ bytesLE 4 s ++
        bytesLE 4 subscribeTransmissionMode) ++
        (bytesLE 4 subscribeMaxDelay ++ (bytesLE 4 subscribeCycleTime ++
          List.replicate 16 0)) := by
      simp [subscribeData, List.append_assoc]
    rw [he]
    exact read_u32_at _ subscribeMaxDelay _ 16 (by simp [bytesLE_length]) (by decide)
  · have he : subscribeData g o s = (bytesLE 4 g ++ bytesLE 4 o ++ bytesLE 4 s ++
        bytesLE 4 subscribeTransmissionMode ++ bytesLE 4 subscribeMaxDelay) ++
        (bytesLE 4 subscribeCycleTime ++ List.replicate 16 0) := by
      simp [subscribeData, List.append_assoc]
    rw [he]
    exact read_u32_at _ subscribeCycleTime _ 20 (by simp [bytesLE_length]) (by decide)

/-- Witness for claim C7: the payload for (1, 2, 3) carries mode 4 and
the 10 ms delays. -/
theorem c7_subscribe_defaults_amended_witness :
    readUInt32LE (subscribeData 1 2 3) 12 = some subscribeTransmissionMode ∧
    readUInt32LE (subscribeData 1 2 3) 16 = some subscribeMaxDelay :=
  have h := c7_subscribe_defaults_amended 1 2 3 (by decide) (by decide) (by decide)
  ⟨h.2.2.2.2.1, h.2.2.2.2.2.1⟩

/-- Counterexample to claim C7 as stated: the payload carries max delay
10 ms and cycle time 10 ms, not 200 ms and 50 ms. -/
theorem c7_not_200_50_counterexample :
    readUInt32LE (subscribeData 1 2 3) 16 = some 10 ∧
    (some (10 : Nat) ≠ some (200 : Nat)) ∧
    readUInt32LE (subscribeData 1 2 3) 20 = some 10 ∧
    (some (10 : Nat) ≠ some (50 : Nat)) := by
  refine ⟨by decide, by decide, by decide, by decide⟩

/-- Claim C8 (code bug): the symbol-table decoder does not terminate on
every input.  On a 26-byte all-zero payload the entry length reads as 0,
the guard entryLength >= 26 fails, the buffer is never advanced, and the
while condition stays true: no number of iterations reaches the loop
exit. -/
theorem c8_symbol_decoder_never_terminates :
    ∀ fuel, getSymbolsLoop fuel (List.replicate 26 0) [] = none := by
  intro fuel
  induction fuel with
  | zero =>
    rw [getSymbolsLoop, if_pos (by simp)]
  | succ fuel ih =>
    rw [getSymbolsLoop, if_pos (by simp)]
    have hstep : symbolsStep (List.replicate 26 0) [] = .ok (List.replicate 26 0, []) := by
      decide
    simp only [hstep]
    exact ih

/-- Claim C9 (amended): inside the notification demultiplexer a callback
exception is not captured: it escapes the detached continuation (as an
unhandled rejection, never an error event) and prevents the invocation of
the remaining callbacks of that sample; the remaining samples are still
dispatched, since every sample gets its own continuation. -/
theorem c9_callback_exception_amended {α ε : Type} :
    (∀ (cbs : List (α → Except ε Unit)) (v : α),
      ((forEachCallbacks cbs v).2 = none ↔ ∀ cb ∈ cbs, cb v = .ok ())) ∧
    (∀ (cbs : List (α → Except ε Unit)) (v : α),
      (∀ cb ∈ cbs, cb v = .ok ()) → (forEachCallbacks cbs v).1 = cbs.length) ∧
    (∀ (c : α → Except ε Unit) (rest : List (α → Except ε Unit)) (v : α) (e : ε),
      c v = .error e → forEachCallbacks (c :: rest) v = (1, some e)) ∧
    (∀ (registry : List (NotificationHandle (List Nat → Except ε Unit)))
       (data : List Nat) (samples : List (Nat × List Nat)),
      parseNotificationSamples data = some samples →
      notificationHandler registry data =
        some (samples.map (fun hs => dispatchSample registry hs.1 hs.2)) ∧
      (samples.map (fun hs => dispatchSample registry hs.1 hs.2)).length = samples.length) := by
  refine ⟨forEach_none_iff, forEach_count_all_ok, ?_, ?_⟩
  · intro c rest v e hc
    unfold forEachCallbacks
    rw [hc]
  · intro registry data samples hp
    unfold notificationHandler
    rw [hp]
    exact ⟨rfl, by simp⟩

/-- Witness for claim C9: a two-callback sample where both succeed
invokes both and lets no exception escape. -/
theorem c9_callback_exception_amended_witness :
    (forEachCallbacks twoOkCallbacks (0 : Nat)).2 = none ∧
    (forEachCallbacks twoOkCallbacks (0 : Nat)).1 = 2 := by
  have hall : ∀ cb ∈ twoOkCallbacks, cb 0 = .ok () := by decide
  constructor
  · exact (c9_callback_exception_amended.1 twoOkCallbacks 0).mpr hall
  · have h := c9_callback_exception_amended.2.1 twoOkCallbacks 0 hall
    simpa [twoOkCallbacks] using h

/-- Counterexample to claim C9 as stated: with two registered callbacks
of which the first throws, only one callback is invoked - the second is
skipped - and the exception escapes (it is not captured into an error
event). -/
theorem c9_first_throw_skips_rest_counterexample :
    forEachCallbacks
      [fun _ => Except.error "boom", fun (_ : Nat) => Except.ok ()] (0 : Nat) =
      (1, some "boom") ∧
    (1 : Nat) ≠ 2 ∧
    ([fun _ => Except.error "boom", fun (_ : Nat) => Except.ok ()] :
      List (Nat → Except String Unit)).length = 2 := by
  refine ⟨rfl, by decide, rfl⟩

/-- Claim C10: symbol lookup is prefix-based, not path-based - findTag
succeeds exactly when some loaded symbol's upper-cased name is a leading
segment of the upper-cased query - and in particular a query that merely
extends a symbol's name (no sub-item path at all) still resolves to that
symbol. -/
theorem c10_findTag_prefix_lookup :
    (∀ (symbols : List SymbolData) (q : String),
      (findTag symbols q).isSome ↔
        ∃ s ∈ symbols, (jsToUpper q).toList.take s.systemName.length = s.systemName.toList) ∧
    findTag [bTestSym] ".bTestXYZ" = some (bTestSym, ".BTESTXYZ") := by
  constructor
  · intro symbols q
    unfold findTag
    simp only
    cases hf : symbols.find?
        (fun s => s.systemName == String.mk ((jsToUpper q).toList.take s.systemName.length)) with
    | some tag =>
      simp only [Option.isSome_some, true_iff]
      refine ⟨tag, List.mem_of_find?_eq_some hf, ?_⟩
      have hp := List.find?_some hf
      exact (findTag_pred_iff tag q).mp hp
    | none =>
      constructor
      · intro hcontra
        simp at hcontra
      · rintro ⟨s, hmem, hpref⟩
        rw [List.find?_eq_none] at hf
        exact absurd ((findTag_pred_iff s q).mpr hpref) (hf s hmem)
  · decide

end Beckhoff.Claims
